import Mathlib

/-!
Verification development for the `tomasulo-simulator` repository.

This file contains a shallow embedding, in Lean 4, of the Python sources of
the simulator (register file, memory, instructions, timing tracker,
reservation stations, reorder buffer, common data bus, functional units,
branch evaluator, issue unit, Tomasulo core, write-back stage, execution
manager and the integrated per-cycle driver), followed by theorems about the
embedded definitions.

Conventions used throughout the embedding:
* Python integers are modelled as `Int` (or `Nat` for indices / counters);
  every `& 0xFFFF` in the source becomes `% 65536` on `Int` (`Int.emod`),
  which agrees with Python's semantics of masking arbitrary integers.
* Python `None` becomes `Option.none`; a Python value that may be either an
  `int`, one of the result dictionaries, or `None` becomes the `PyVal` type.
* Python dictionaries with fixed key sets become structures; dictionary /
  attribute accesses with defaults (`d.get(k, 0)`) become `Option.getD`.
* Mutation becomes explicit state passing; a method that mutates an object
  and returns a value becomes a function returning a pair.
* A Python `raise` in the tiny leaf classes (register file) is modelled
  explicitly (an `Option` result or a raised-`Bool` flag).  The raise paths
  inside the pipeline (reservation-station `push` validation, negative
  memory addresses) are unreachable for programs produced by the parser and
  are modelled as total functions; comments mark each such spot.
-/

namespace TomSim

/-- A Python runtime value as it flows through the simulator: `None`, an
`int`, or one of the fixed-shape result dictionaries produced by the
functional units / branch evaluator / store handling. -/
inductive PyVal where
  | pnone : PyVal
  | pint (v : Int) : PyVal
  | pbranch (taken : Bool) (target : Int) : PyVal          -- {"taken","target","condition_met"}
  | pcall (target : Int) (return_address : Int) : PyVal    -- {"target","return_address"}
  | pret (target : Int) : PyVal                            -- {"target"}
  | pstore (address : Int) (value : Int) : PyVal           -- {"address","value"}
  deriving DecidableEq, Repr

namespace PyVal

/-- `isinstance(value, dict)` on a `PyVal`. -/
def isDict : PyVal → Bool
  | pnone => false
  | pint _ => false
  | _ => true

/-- `value.get("return_address", 0)` on a dictionary value. -/
def returnAddressD : PyVal → Int
  | pcall _ r => r
  | _ => 0

/-- Coerce a `PyVal` known to be an `int` (defaulting, as the call sites
that can only ever see integers would). -/
def toIntD : PyVal → Int
  | pint v => v
  | _ => 0

end PyVal

/-! ### `src/interfaces/register_interface.py` -/

/-- The 16-bit register file: 8 registers, all initialized to 0. -/
structure RegisterFile where
  registers : List Int
  deriving DecidableEq, Repr

namespace RegisterFile

def init : RegisterFile := ⟨List.replicate 8 0⟩

/-- `RegisterFile.read`.  `none` models the `ValueError` raised for an index
outside `0..7`; otherwise the stored value is returned. -/
def read (rf : RegisterFile) (register : Int) : Option Int :=
  if register < 0 ∨ register > 7 then none
  else some (rf.registers.getD register.toNat 0)

/-- `RegisterFile.write`.  The returned `Bool` is `true` exactly when the
source raises `ValueError`; in that case the register contents are the ones
the object held before the call (the `raise` happens before any mutation).
A write to register 0 is skipped; other writes store `value & 0xFFFF`. -/
def write (rf : RegisterFile) (register : Int) (value : Int) : RegisterFile × Bool :=
  if register < 0 ∨ register > 7 then (rf, true)
  else if register ≠ 0 then (⟨rf.registers.set register.toNat (value % 65536)⟩, false)
  else (rf, false)

/-- In-range read as used inside the pipeline (register numbers there come
from parsed instructions and are always in `0..7`). -/
def readN (rf : RegisterFile) (register : Nat) : Int :=
  (rf.read register).getD 0

/-- In-range write as used inside the pipeline. -/
def writeN (rf : RegisterFile) (register : Nat) (value : Int) : RegisterFile :=
  (rf.write register value).1

end RegisterFile

/-! ### `src/interfaces/memory_interface.py` -/

/-- 16-bit word-addressable memory, a Python dict from address to value.
Unwritten addresses read as 0.  (The `ValueError` on negative addresses is
unreachable in the pipeline: every address is masked with `& 0xFFFF` before
the access.) -/
structure Memory where
  entries : List (Int × Int)
  deriving DecidableEq, Repr

namespace Memory

def init : Memory := ⟨[]⟩

def read (m : Memory) (address : Int) : Int :=
  (m.entries.lookup address).getD 0

def write (m : Memory) (address : Int) (value : Int) : Memory :=
  ⟨(address, value % 65536) :: m.entries.filter (fun p => p.1 ≠ address)⟩

end Memory

/-! ### `src/interfaces/instruction.py` -/

/-- A decoded instruction.  `instr_id` is always assigned by the parser
(starting at 1), so it is a plain `Nat` here. -/
structure Instruction where
  name : String
  rA : Option Nat := none
  rB : Option Nat := none
  rC : Option Nat := none
  immediate : Option Int := none
  label : Option String := none
  issue_cycle : Option Nat := none
  instr_id : Nat
  deriving DecidableEq, Repr

instance : Inhabited Instruction := ⟨{ name := "", instr_id := 0 }⟩

/-! ### `src/execution/timing_tracker.py` -/

/-- One row of the timing table. -/
structure TimingEntry where
  issue : Option Nat := none
  start_exec : Option Nat := none
  finish_exec : Option Nat := none
  write : Option Nat := none
  commit : Option Nat := none
  deriving DecidableEq, Repr

/-- `TimingTracker.timing`: a map from `instr_id` to its timing row. -/
abbrev TimingTracker := Nat → Option TimingEntry

namespace TimingTracker

def empty : TimingTracker := fun _ => none

def record_issue (t : TimingTracker) (instr_id cycle : Nat) : TimingTracker :=
  fun k => if k = instr_id then
    some (match t instr_id with
      | none => { issue := some cycle }
      | some e => { e with issue := some cycle })
  else t k

def record_start_exec (t : TimingTracker) (instr_id cycle : Nat) : TimingTracker :=
  fun k => if k = instr_id then
    some (match t instr_id with
      | none => { start_exec := some cycle }
      | some e => { e with start_exec := some cycle })
  else t k

def record_finish_exec (t : TimingTracker) (instr_id cycle : Nat) : TimingTracker :=
  fun k => if k = instr_id then
    some (match t instr_id with
      | none => { finish_exec := some cycle }
      | some e => { e with finish_exec := some cycle })
  else t k

def record_write (t : TimingTracker) (instr_id cycle : Nat) : TimingTracker :=
  fun k => if k = instr_id then
    some (match t instr_id with
      | none => { write := some cycle }
      | some e => { e with write := some cycle })
  else t k

def record_commit (t : TimingTracker) (instr_id cycle : Nat) : TimingTracker :=
  fun k => if k = instr_id then
    some (match t instr_id with
      | none => { commit := some cycle }
      | some e => { e with commit := some cycle })
  else t k

def get_timing (t : TimingTracker) (instr_id : Nat) : Option TimingEntry := t instr_id

end TimingTracker

/-! ### `src/execution/reservation_station.py`

The five RS classes (`LoadRS`, `StoreRS`, `ALURS`, `CALLRS`, `BEQRS`) share
the base-class fields and differ in which operand attributes exist; a
single structure with a `kind` tag records which class a slot belongs to,
and the `hasattr` probes of the source become functions of the kind. -/

inductive RSKind where
  | load | store | alu | callret | beq
  deriving DecidableEq, Repr

/-- One reservation-station slot.  Fields that do not exist on a given
class are kept at `none` for slots of that kind. -/
structure RS where
  kind : RSKind
  Op : Option String := none
  busy : Bool := false
  instruction : Option Instruction := none
  state : Option String := none
  dest : Option Nat := none
  Vj : Option Int := none
  Qj : Option Nat := none
  Vk : Option Int := none
  Qk : Option Nat := none
  A : Option Int := none
  PC : Option Nat := none
  deriving DecidableEq, Repr

namespace RS

/-- `hasattr(rs, 'Qk')`: only `StoreRS`, `ALURS` and `BEQRS` have a second
operand slot. -/
def hasQk (rs : RS) : Bool :=
  match rs.kind with
  | .store | .alu | .beq => true
  | _ => false

/-- `hasattr(rs, 'A')`: every class except `ALURS` has an immediate field. -/
def hasA (rs : RS) : Bool :=
  match rs.kind with
  | .alu => false
  | _ => true

/-- `hasattr(rs, 'PC')`: only `CALLRS` has a captured program counter. -/
def hasPC (rs : RS) : Bool :=
  match rs.kind with
  | .callret => true
  | _ => false

/-- `LoadRS.push`.  (The source validates that the slot is free and that
exactly one of `Vj`/`Qj` is set, raising otherwise; all call sites check
`busy` first and the issue unit supplies exactly one operand form, so the
raise paths are unreachable and the embedding is total.) -/
def loadPush (rs : RS) (instruction : Instruction) (A : Option Int) (dest : Nat)
    (Vj : Option Int) (Qj : Option Nat) : RS :=
  { rs with instruction := some instruction, Op := some "LOAD", busy := true,
            Vj := Vj, Qj := Qj, A := A, dest := some dest }

/-- `StoreRS.push`. -/
def storePush (rs : RS) (instruction : Instruction) (A : Option Int) (dest : Nat)
    (Vj : Option Int) (Qj : Option Nat) (Vk : Option Int) (Qk : Option Nat) : RS :=
  { rs with instruction := some instruction, Op := some "STORE", busy := true,
            Vj := Vj, Qj := Qj, Vk := Vk, Qk := Qk, A := A, dest := some dest }

/-- `ALURS.push`. -/
def aluPush (rs : RS) (instruction : Instruction) (Op : String) (dest : Nat)
    (Vj : Option Int) (Qj : Option Nat) (Vk : Option Int) (Qk : Option Nat) : RS :=
  { rs with instruction := some instruction, Op := some Op, busy := true,
            Vj := Vj, Qj := Qj, Vk := Vk, Qk := Qk, dest := some dest }

/-- `CALLRS.push`. -/
def callPush (rs : RS) (instruction : Instruction) (Op : String) (dest : Nat)
    (A : Option Int) (Vj : Option Int) (Qj : Option Nat) (PC : Option Nat) : RS :=
  { rs with instruction := some instruction, Op := some Op, busy := true,
            A := A, dest := some dest, Vj := Vj, Qj := Qj, PC := PC }

/-- `BEQRS.push`.  NOTE: in the source, `BEQRS.push` accepts no `PC`
keyword, while `IssueUnit.rs_issue` passes `PC=instruction_pc` — issuing a
BEQ through the issue unit therefore raises `TypeError` and aborts the
Python run.  The embedding keeps the class as written (no `PC` stored);
no run treated in this file issues a BEQ. -/
def beqPush (rs : RS) (instruction : Instruction) (A : Option Int) (dest : Nat)
    (Vj : Option Int) (Qj : Option Nat) (Vk : Option Int) (Qk : Option Nat) : RS :=
  { rs with instruction := some instruction, Op := some "BEQ", busy := true,
            Vj := Vj, Qj := Qj, Vk := Vk, Qk := Qk, A := A, dest := some dest }

/-- `is_ready`, per class: `LoadRS` needs `Qj` resolved; the dual-operand
classes need both `Qj` and `Qk` resolved; `CALLRS` is always ready for a
CALL and needs `Qj` resolved for a RET. -/
def is_ready (rs : RS) : Bool :=
  match rs.kind with
  | .load => rs.busy && rs.Qj = none
  | .store => rs.busy && rs.Qj = none && rs.Qk = none
  | .alu => rs.busy && rs.Qj = none && rs.Qk = none
  | .beq => rs.busy && rs.Qj = none && rs.Qk = none
  | .callret => if rs.Op = some "RET" then rs.busy && rs.Qj = none else rs.busy

/-- `source_update` (single-operand classes): resolve the waiting tag. -/
def source_update (rs : RS) (value : Option Int) : RS :=
  { rs with Vj := value, Qj := none }

/-- `source1_update`. -/
def source1_update (rs : RS) (value : Option Int) : RS :=
  { rs with Vj := value, Qj := none }

/-- `source2_update`. -/
def source2_update (rs : RS) (value : Option Int) : RS :=
  { rs with Vk := value, Qk := none }

/-- `pop`, per class; the classes reset different subsets of the fields
(`ALURS.pop` notably leaves `state` and `dest` as they are). -/
def pop (rs : RS) : RS :=
  match rs.kind with
  | .load =>
      { rs with instruction := none, Op := none, busy := false, state := none,
                dest := none, Vj := none, Qj := none, A := none }
  | .store =>
      { rs with instruction := none, Op := none, busy := false, state := none,
                dest := none, Vj := none, Qj := none, Vk := none, Qk := none, A := none }
  | .alu =>
      { rs with instruction := none, Op := none, busy := false,
                Vj := none, Qj := none, Vk := none, Qk := none }
  | .callret =>
      { rs with instruction := none, Op := none, busy := false, state := none,
                dest := none, A := none, Vj := none, Qj := none, PC := none }
  | .beq =>
      { rs with instruction := none, Op := none, busy := false, state := none,
                dest := none, Vj := none, Qj := none, Vk := none, Qk := none, A := none }

/-- `change_state`. -/
def change_state (rs : RS) (new_state : String) : RS :=
  { rs with state := some new_state }

end RS

/-- The reservation-station pool: the insertion-ordered dict of
`TomasuloCore.__init__`, as an association list (list order = the dict's
iteration order). -/
abbrev RSMap := List (String × RS)

/-- The default pool built by `TomasuloCore.__init__`. -/
def rsMapInit : RSMap :=
  [("LOAD1", { kind := .load }), ("LOAD2", { kind := .load }),
   ("STORE", { kind := .store }),
   ("BEQ1", { kind := .beq }), ("BEQ2", { kind := .beq }),
   ("CALL/RET", { kind := .callret }),
   ("ADD/SUB1", { kind := .alu }), ("ADD/SUB2", { kind := .alu }),
   ("ADD/SUB3", { kind := .alu }), ("ADD/SUB4", { kind := .alu }),
   ("NAND", { kind := .alu }), ("MUL", { kind := .alu })]

namespace RSMap

/-- `self.reservation_stations[key]` (the call sites only use existing keys). -/
def get (m : RSMap) (key : String) : RS :=
  ((List.lookup key m).getD { kind := .alu })

/-- In-place mutation of the slot stored under `key`. -/
def modify (m : RSMap) (key : String) (f : RS → RS) : RSMap :=
  m.map (fun p => if p.1 = key then (p.1, f p.2) else p)

end RSMap

/-! ### `src/execution/rob.py` -/

/-- One ROB entry. -/
structure ROBEntry where
  name : String
  dest : Option Nat
  ready : Bool := false
  value : PyVal := .pnone
  instr_id : Option Nat
  deriving DecidableEq, Repr

/-- `ROB_Entry.update`: mark ready with the computed value. -/
def ROBEntry.update (e : ROBEntry) (value : PyVal) : ROBEntry :=
  { e with ready := true, value := value }

/-- The ROB capacity of the default-constructed core (`max_size = 8`). -/
def robSize : Nat := 8

/-- The `circular_queue` of `rob.py`, with the fixed size 8 used by the
default-constructed `ReorderBuffer`. -/
structure CQ where
  queue : List (Option ROBEntry)
  head : Nat
  tail : Nat
  count : Nat
  deriving DecidableEq, Repr

namespace CQ

def init : CQ := ⟨List.replicate robSize none, 0, 0, 0⟩

def is_full (q : CQ) : Bool := q.count = robSize

def is_empty (q : CQ) : Bool := q.count = 0

/-- `enqueue`: `false` (and no change) when full. -/
def enqueue (q : CQ) (item : ROBEntry) : CQ × Bool :=
  if q.is_full then (q, false)
  else ({ q with queue := q.queue.set q.tail (some item),
                 tail := (q.tail + 1) % robSize,
                 count := q.count + 1 }, true)

/-- `dequeue_front`.  The source raises on an empty queue; all call sites
guard with a count check first, so the `none` result is never consumed. -/
def dequeue_front (q : CQ) : CQ × Option ROBEntry :=
  if q.is_empty then (q, none)
  else ({ q with queue := q.queue.set q.head none,
                 head := (q.head + 1) % robSize,
                 count := q.count - 1 },
        q.queue.getD q.head none)

/-- `dequeue_back` (same guarding discipline as `dequeue_front`). -/
def dequeue_back (q : CQ) : CQ × Option ROBEntry :=
  if q.is_empty then (q, none)
  else
    let t := (q.tail + robSize - 1) % robSize
    ({ q with queue := q.queue.set t none, tail := t, count := q.count - 1 },
     q.queue.getD t none)

def peek_front (q : CQ) : Option ROBEntry :=
  if q.is_empty then none else q.queue.getD q.head none

def peek_back (q : CQ) : Option ROBEntry :=
  if q.is_empty then none
  else q.queue.getD ((q.tail + robSize - 1) % robSize) none

/-- `traverse`: the live entries, oldest first (the source returns the raw
cells, which may in principle hold `None`). -/
def traverse (q : CQ) : List (Option ROBEntry) :=
  (List.range q.count).map (fun i => q.queue.getD ((q.head + i) % robSize) none)

/-- Distance of a circular index from the head, `(i - head + max_size) %
max_size`: the "oldest by ROB order" measure used both by
`notify_branch_result` and by the specification's statements. -/
def dist (q : CQ) (i : Nat) : Nat := (i + robSize - q.head) % robSize

/-- Well-formedness of the circular queue, maintained by construction from
`CQ.init`: 8 cells, head in range, count bounded, tail determined by head
and count, and a cell is occupied exactly when its distance from the head
is below the count. -/
def WF (q : CQ) : Prop :=
  q.queue.length = robSize ∧ q.head < robSize ∧ q.count ≤ robSize ∧
  q.tail = (q.head + q.count) % robSize ∧
  ∀ i, i < robSize → ((q.queue.getD i none).isSome = decide (q.dist i < q.count))

/-- Membership in the set of ROB indices a flush of branch index `b`
discards: live entries strictly younger than `b`. -/
def discarded (q : CQ) (b i : Nat) : Prop :=
  i < robSize ∧ q.dist b < q.dist i ∧ q.dist i < q.count

end CQ

/-! `ReorderBuffer` wraps the circular queue; its methods are defined
directly on `CQ` (the `max_size` field is the constant `robSize`). -/

namespace ROB

/-- `ReorderBuffer.push`. -/
def push (q : CQ) (type_ : String) (dest : Option Nat) (instr_id : Option Nat) :
    CQ × Bool :=
  q.enqueue { name := type_, dest := dest, instr_id := instr_id }

/-- `ReorderBuffer.update`: mark the entry whose *actual circular index*
is `index` as ready with `value` (a no-op when the index is out of range or
no live entry sits at that index). -/
def update (q : CQ) (index : Nat) (value : PyVal) : CQ :=
  if index < robSize ∧ 0 < q.count then
    { q with queue := (List.range robSize).map (fun j =>
        match q.queue.getD j none with
        | none => none
        | some e =>
          if j = index ∧ (j + robSize - q.head) % robSize < q.count then
            some (e.update value)
          else some e) }
  else q

/-- `ReorderBuffer.find`: first live entry (oldest first) whose destination
register equals `dest`, together with its actual circular index.  `none`
models the `(None, -1)` result. -/
def find (q : CQ) (dest : Nat) : Option (ROBEntry × Nat) :=
  (List.range q.count).findSome? (fun i =>
    match q.queue.getD ((q.head + i) % robSize) none with
    | none => none
    | some e => if e.dest = some dest then some (e, (q.head + i) % robSize) else none)

/-- The popping loop of `ReorderBuffer.flush_tail`: pop from the tail while
the newest live index differs from `index`.  Fuel bounds the recursion; the
callers pass `q.count`, which the loop can never exceed. -/
def flushTailGo (index : Nat) : Nat → CQ →
    (List Nat × List (Option Nat) × List (Option Nat)) × CQ
  | 0, q => (([], [], []), q)
  | fuel + 1, q =>
    let actual_tail_index := (q.tail + robSize - 1) % robSize
    if actual_tail_index ≠ index ∧ 0 < q.count then
      match q.peek_back with
      | none => (([], [], []), q)      -- `if entry is None: break`
      | some entry =>
        let current_index := (q.tail + robSize - 1) % robSize
        let q' := (q.dequeue_back).1
        let ((ri, dr, ii), q'') := flushTailGo index fuel q'
        ((current_index :: ri, entry.dest :: dr, entry.instr_id :: ii), q'')
    else (([], [], []), q)

/-- `ReorderBuffer.flush_tail`: flush from the tail until the entry at
`index` is the newest one (so that entry itself is kept); returns the lists
of flushed circular indices, destination registers and instruction ids. -/
def flush_tail (q : CQ) (index : Nat) :
    (List Nat × List (Option Nat) × List (Option Nat)) × CQ :=
  if q.count = 0 then (([], [], []), q)
  else flushTailGo index q.count q

end ROB

/-! ### `src/execution/cdb.py` -/

/-- The common data bus.  A broadcast is `(rob_index, value, instruction_type)`. -/
structure CDBState where
  current_broadcast : Option (Nat × PyVal × String) := none
  is_busy : Bool := false
  pending_broadcasts : List (Nat × PyVal × String) := []
  deriving DecidableEq, Repr

namespace CDBState

/-- `CDB.broadcast`: `false` when the bus is already busy, in which case the
result is appended to `pending_broadcasts`. -/
def broadcast (c : CDBState) (rob_index : Nat) (value : PyVal)
    (instruction_type : String) : CDBState × Bool :=
  if c.is_busy then
    ({ c with pending_broadcasts :=
        c.pending_broadcasts ++ [(rob_index, value, instruction_type)] }, false)
  else
    ({ c with current_broadcast := some (rob_index, value, instruction_type),
              is_busy := true }, true)

/-- `CDB.clear`: drop the current broadcast; `pending_broadcasts` is kept. -/
def clear (c : CDBState) : CDBState :=
  { c with current_broadcast := none, is_busy := false }

end CDBState

/-! ### `src/execution/branch_evaluator.py` -/

namespace BranchEvaluator

/-- `evaluate_beq`: the result dictionary `{taken, target, condition_met}`
(the `condition_met` key duplicates `taken`). -/
def evaluate_beq (operand_a operand_b offset : Int) (pc : Int) : PyVal :=
  let condition_met := operand_a = operand_b
  let target : Int := if condition_met then (pc + 1 + offset) % 65536 else (pc + 1) % 65536
  .pbranch condition_met target

/-- `evaluate_call`: `{target, return_address}`. -/
def evaluate_call (label_offset : Int) (pc : Int) : PyVal :=
  .pcall ((pc + 1 + label_offset) % 65536) ((pc + 1) % 65536)

/-- `evaluate_ret`: `{target}`. -/
def evaluate_ret (r1_value : Int) : PyVal :=
  .pret (r1_value % 65536)

end BranchEvaluator

/-! ### `src/execution/functional_units.py` -/

inductive FUSt where
  | idle | executing | finished
  deriving DecidableEq, Repr

inductive FUKind where
  | addsub | nand | mul | load | store | beq | callret
  deriving DecidableEq, Repr

/-- The instruction dictionary handed to the execution manager by
`TomasuloCore.get_ready_rs_entries` (keys `op`, `instr_id`, `rob_index`,
`rA`, `rB`, `rC`, `immediate`, `label`). -/
structure InstrDict where
  op : String
  instr_id : Option Nat := none
  rob_index : Option Nat := none
  rA : Option Nat := none
  rB : Option Nat := none
  rC : Option Nat := none
  immediate : Option Int := none
  label : Option String := none
  deriving DecidableEq, Repr

/-- The operands dictionary built by `TomasuloCore.get_rs_operands`
(absent keys are `none`). -/
structure Operands where
  Vj : Option Int := none
  Vk : Option Int := none
  Qj : Option Nat := none
  Qk : Option Nat := none
  immediate : Option Int := none
  pc : Option Nat := none
  deriving DecidableEq, Repr

/-- A functional unit.  The `address_phase` / `computed_address` /
`store_value` fields belong to the `LoadFU` / `StoreFU` subclasses and stay
at their defaults for the other kinds. -/
structure FU where
  kind : FUKind
  latency : Int
  cycles_remaining : Int := 0
  state : FUSt := .idle
  current_instruction : Option InstrDict := none
  rs_entry_id : Option String := none
  result : Option PyVal := none
  operands : Operands := {}
  address_phase : Bool := true
  computed_address : Option Int := none
  store_value : Option Int := none
  deriving DecidableEq, Repr

namespace FU

def mkAddSub : FU := { kind := .addsub, latency := 2 }
def mkNand : FU := { kind := .nand, latency := 1 }
def mkMul : FU := { kind := .mul, latency := 12 }
def mkLoad : FU := { kind := .load, latency := 6 }
def mkStore : FU := { kind := .store, latency := 6 }
def mkBeq : FU := { kind := .beq, latency := 1 }
def mkCallRet : FU := { kind := .callret, latency := 1 }

def is_busy (fu : FU) : Bool := fu.state = .executing

/-- `start_execution` (including the `LoadFU`/`StoreFU` overrides, which
additionally reset the phase bookkeeping and latch the store value). -/
def start_execution (fu : FU) (instruction : InstrDict) (rs_entry_id : String)
    (operands : Operands) : FU :=
  let fu := { fu with current_instruction := some instruction,
                      rs_entry_id := some rs_entry_id,
                      operands := operands,
                      cycles_remaining := fu.latency,
                      state := .executing,
                      result := none }
  match fu.kind with
  | .load => { fu with address_phase := true, computed_address := none }
  | .store => { fu with address_phase := true, computed_address := none,
                        store_value := some ((operands.Vj).getD 0) }
  | _ => fu

/-- `AddSubFU.compute_result`. -/
def computeAddSub (fu : FU) : PyVal :=
  let op := ((fu.current_instruction).map (·.op)).getD ""
  let rB_val := (fu.operands.Vj).getD 0
  let rC_val := (fu.operands.Vk).getD 0
  if op = "ADD" then .pint ((rB_val + rC_val) % 65536)
  else if op = "SUB" then .pint ((rB_val - rC_val) % 65536)
  else .pint 0

/-- `NandFU.compute_result`: `(~(rB & rC)) & 0xFFFF`.  On Python integers
`~a = -1 - a` and `x & 0xFFFF = x mod 2¹⁶`; the operand values are
register/forwarded words in `[0, 2¹⁶)`, for which `rB & rC` is
`Nat`-bitwise-and of their magnitudes. -/
def computeNand (fu : FU) : PyVal :=
  let rB_val := (fu.operands.Vj).getD 0
  let rC_val := (fu.operands.Vk).getD 0
  .pint ((-1 - (Int.ofNat (rB_val.toNat &&& rC_val.toNat))) % 65536)

/-- `MulFU.compute_result`. -/
def computeMul (fu : FU) : PyVal :=
  let rB_val := (fu.operands.Vj).getD 0
  let rC_val := (fu.operands.Vk).getD 0
  .pint ((rB_val * rC_val) % 65536)

/-- `BeqFU.compute_result`. -/
def computeBeq (fu : FU) : PyVal :=
  let rA_val := (fu.operands.Vj).getD 0
  let rB_val := (fu.operands.Vk).getD 0
  let offset := (fu.operands.immediate).getD 0
  let pc : Int := ((fu.operands.pc).getD 0 : Nat)
  let condition_met := rA_val = rB_val
  let target : Int := if condition_met then (pc + 1 + offset) % 65536 else (pc + 1) % 65536
  .pbranch condition_met target

/-- `CallRetFU.compute_result`.  (The defensive re-extraction of a
dictionary-valued `R1` never fires: `forward_to_rs` and the issue unit
always deliver the extracted integer return address.) -/
def computeCallRet (fu : FU) : PyVal :=
  let op := ((fu.current_instruction).map (·.op)).getD ""
  let pc : Int := ((fu.operands.pc).getD 0 : Nat)
  if op = "CALL" then
    let label_offset := (fu.operands.immediate).getD 0
    .pcall ((pc + 1 + label_offset) % 65536) ((pc + 1) % 65536)
  else if op = "RET" then
    let r1_val := (fu.operands.Vj).getD 0
    .pret (r1_val % 65536)
  else .pret ((pc + 1) % 65536)

/-- `compute_result`, dispatched on the unit's class. -/
def compute_result (fu : FU) : PyVal :=
  match fu.kind with
  | .addsub => fu.computeAddSub
  | .nand => fu.computeNand
  | .mul => fu.computeMul
  | .beq => fu.computeBeq
  | .callret => fu.computeCallRet
  | .load => (fu.result).getD (.pint 0)   -- LoadFU: result already latched in tick
  | .store => .pint ((fu.computed_address).getD 0)

/-- `tick` (base class, plus the `LoadFU`/`StoreFU` overrides).  Returns
the updated unit and whether it finished this cycle. -/
def tick (fu : FU) (mem : Memory) : FU × Bool :=
  if fu.state ≠ .executing then (fu, false)
  else
    let fu := { fu with cycles_remaining := fu.cycles_remaining - 1 }
    match fu.kind with
    | .load =>
      let fu :=
        if fu.address_phase ∧ fu.cycles_remaining = 4 then
          let rB_val := (fu.operands.Vj).getD 0      -- `... or 0` (None → 0)
          let offset := (fu.operands.immediate).getD 0
          { fu with computed_address := some ((rB_val + offset) % 65536),
                    address_phase := false }
        else fu
      if fu.cycles_remaining ≤ 0 then
        let v : Int := match fu.computed_address with
          | some a => mem.read a
          | none => 0
        ({ fu with result := some (.pint v), state := .finished }, true)
      else (fu, false)
    | .store =>
      let fu :=
        if fu.address_phase ∧ fu.cycles_remaining = 4 then
          let rB_val := (fu.operands.Vk).getD 0
          let offset := (fu.operands.immediate).getD 0
          { fu with computed_address := some ((rB_val + offset) % 65536),
                    address_phase := false }
        else fu
      if fu.cycles_remaining ≤ 0 then
        ({ fu with result := some (.pint ((fu.computed_address).getD 0)),
                   state := .finished }, true)
      else (fu, false)
    | _ =>
      if fu.cycles_remaining ≤ 0 then
        let fu := { fu with state := .finished }
        ({ fu with result := some fu.compute_result }, true)
      else (fu, false)

/-- `get_store_value`. -/
def get_store_value (fu : FU) : Int := (fu.store_value).getD 0

/-- `reset`. -/
def reset (fu : FU) : FU :=
  { fu with current_instruction := none, rs_entry_id := none, operands := {},
            cycles_remaining := 0, state := .idle, result := none }

end FU

/-- The functional-unit pool of `FUPool.__init__`. -/
structure FUPool where
  add_sub_units : List FU
  nand_units : List FU
  mul_units : List FU
  load_units : List FU
  store_units : List FU
  beq_units : List FU
  call_ret_units : List FU
  deriving DecidableEq, Repr

namespace FUPool

/-- `FUPool.__init__`: the default unit counts of the source. -/
def init : FUPool where
  add_sub_units := List.replicate 4 FU.mkAddSub
  nand_units := List.replicate 2 FU.mkNand
  mul_units := List.replicate 1 FU.mkMul
  load_units := List.replicate 2 FU.mkLoad
  store_units := List.replicate 1 FU.mkStore
  beq_units := List.replicate 2 FU.mkBeq
  call_ret_units := List.replicate 1 FU.mkCallRet

/-- `self.fu_map`: which unit list serves an opcode. -/
def fu_map (p : FUPool) (instruction_type : String) : Option (List FU) :=
  if instruction_type = "ADD" ∨ instruction_type = "SUB" then some p.add_sub_units
  else if instruction_type = "NAND" then some p.nand_units
  else if instruction_type = "MUL" then some p.mul_units
  else if instruction_type = "LOAD" then some p.load_units
  else if instruction_type = "STORE" then some p.store_units
  else if instruction_type = "BEQ" then some p.beq_units
  else if instruction_type = "CALL" ∨ instruction_type = "RET" then some p.call_ret_units
  else none

/-- `is_available`: some unit of the class is not busy. -/
def is_available (p : FUPool) (instruction_type : String) : Bool :=
  match p.fu_map instruction_type with
  | none => false
  | some l => l.any (fun fu => ¬ fu.is_busy)

/-- Write back the unit list for an opcode class. -/
def setList (p : FUPool) (instruction_type : String) (l : List FU) : FUPool :=
  if instruction_type = "ADD" ∨ instruction_type = "SUB" then { p with add_sub_units := l }
  else if instruction_type = "NAND" then { p with nand_units := l }
  else if instruction_type = "MUL" then { p with mul_units := l }
  else if instruction_type = "LOAD" then { p with load_units := l }
  else if instruction_type = "STORE" then { p with store_units := l }
  else if instruction_type = "BEQ" then { p with beq_units := l }
  else if instruction_type = "CALL" ∨ instruction_type = "RET" then { p with call_ret_units := l }
  else p

end FUPool

/-! ### `src/execution/writeback.py` — queue entries -/

/-- An element of `WriteBackStage.write_queue`. -/
structure WBEntry where
  rob_index : Nat
  value : PyVal
  instruction_type : String
  instruction : InstrDict
  rs_entry_id : Option String
  deriving DecidableEq, Repr

/-- Stable insertion of a queue entry after all entries with a
less-or-equal ROB index. -/
def insertByRob (x : WBEntry) : List WBEntry → List WBEntry
  | [] => [x]
  | y :: ys => if y.rob_index ≤ x.rob_index then y :: insertByRob x ys else x :: y :: ys

/-- `write_queue.sort(key=lambda x: x["rob_index"])`: Python's sort is
stable, and a stable insertion sort on the same key computes the same
list. -/
def sortByRob (l : List WBEntry) : List WBEntry :=
  l.foldl (fun acc x => insertByRob x acc) []

/-- Remove the first entry satisfying `p` (the `pop(i)` after the linear
scan in `process_write_back`). -/
def extractFirstWB (p : WBEntry → Bool) : List WBEntry → Option (WBEntry × List WBEntry)
  | [] => none
  | x :: xs =>
    if p x then some (x, xs)
    else match extractFirstWB p xs with
      | some (r, rest) => some (r, x :: rest)
      | none => none

/-! ### The combined simulator state

Python distributes the mutable objects over `IntegratedSimulator`,
`TomasuloCore`, `IssueUnit`, `ExecutionManager` and `WriteBackStage`, but
they all alias the *same* register file, memory, timing tracker, RS pool,
ROB and RAT (`IntegratedSimulator.__init__` wires the references).  The
embedding therefore keeps one state record; each method below names the
Python method it translates.  The driver's `current_cycle` / `max_cycles`
are threaded as explicit parameters of the run loop. -/

structure Sim where
  instructions : List Instruction
  label_map : List (String × Nat)
  reg_file : RegisterFile := .init
  mem : Memory := .init
  timing : TimingTracker := .empty
  reservation_stations : RSMap := rsMapInit
  rob : CQ := .init
  rat : List (Option Nat) := List.replicate 8 none
  pending_branch_label : Option String := none
  pending_branch_rob_index : Option Nat := none
  pending_branch_target : Option Int := none
  recently_flushed_ids : List Nat := []
  flushed_rs_entry_ids : List String := []
  next_index : Nat := 0
  issued_instructions : List Instruction := []
  last_jump_index : Option Nat := none
  fu_pool : FUPool := .init
  cdb : CDBState := {}
  write_queue : List WBEntry := []
  flushed_instructions : List Nat := []

/-- `IntegratedSimulator.__init__` (with the program, label map and memory
pre-state as inputs in place of the parser). -/
def Sim.init (instructions : List Instruction) (label_map : List (String × Nat))
    (mem : Memory) : Sim :=
  { instructions := instructions, label_map := label_map, mem := mem }

/-! ### `src/interfaces/tomasulo_interface.py` — `TomasuloCore` -/

/-- `TomasuloCore.rat_mapping`. -/
def rat_mapping (s : Sim) (reg : Nat) (rob_index : Nat) : Sim :=
  { s with rat := s.rat.set reg (some rob_index) }

/-- `TomasuloCore.clear_rat_mapping`. -/
def clear_rat_mapping (s : Sim) (dest_reg : Nat) (rob_index : Nat) : Sim :=
  if s.rat.getD dest_reg none = some rob_index then
    { s with rat := s.rat.set dest_reg none }
  else s

/-- `TomasuloCore.update_rob_value` (`ReorderBuffer.update` already absorbs
the bounds checking and the committed-entry try/except). -/
def update_rob_value (s : Sim) (rob_index : Nat) (value : PyVal) : Sim :=
  { s with rob := ROB.update s.rob rob_index value }

/-- `TomasuloCore.update_rat` is `pass` in the source. -/
def update_rat (s : Sim) (_rob_index : Nat) (_value : PyVal) : Sim := s

/-- The per-slot action of `forward_to_rs` for an integer broadcast value:
RET waiters match on `Qj`; single-operand classes (`hasattr(rs,'Qj') and
not hasattr(rs,'Qk')`) update their only slot; dual-operand classes update
whichever of `Qj` / `Qk` carries the tag. -/
def rsForwardInt (rob_index : Nat) (v : Option Int) (rs : RS) : RS :=
  if ¬ rs.busy then rs
  else if rs.Op = some "RET" ∧ rs.Qj = some rob_index then rs.source_update v
  else if ¬ rs.hasQk then
    (if rs.Qj = some rob_index then rs.source_update v else rs)
  else
    let rs := if rs.Qj = some rob_index then rs.source1_update v else rs
    if rs.Qk = some rob_index then rs.source2_update v else rs

/-- `TomasuloCore.forward_to_rs`.  A dictionary value (a CALL composite) is
forwarded only to RET waiters, as its extracted `return_address`; an
integer value is forwarded to every matching busy slot.  Nothing is
forwarded when the producing ROB entry is no longer live. -/
def forward_to_rs (s : Sim) (rob_index : Nat) (value : PyVal) : Sim :=
  let rob_entry : Option ROBEntry :=
    if rob_index < robSize ∧ 0 < s.rob.count then
      (List.range s.rob.count).findSome? (fun i =>
        match s.rob.queue.getD ((s.rob.head + i) % robSize) none with
        | some e => if (s.rob.head + i) % robSize = rob_index then some e else none
        | none => none)
    else none
  match rob_entry with
  | none => s
  | some _ =>
    if value.isDict then
      { s with reservation_stations := s.reservation_stations.map (fun p =>
          if p.2.busy ∧ p.2.Op = some "RET" ∧ p.2.Qj = some rob_index then
            (p.1, p.2.source_update (some value.returnAddressD))
          else p) }
    else
      { s with reservation_stations := s.reservation_stations.map (fun p =>
          (p.1, rsForwardInt rob_index (some value.toIntD) p.2)) }

/-- The body of the RS-clearing loop in `TomasuloCore.flush`: decide, for
one slot, whether it references a flushed ROB index (destination, `Qj`,
`Qk`, or the unconditional BEQ case) and clear it if so, recording its key. -/
def flushRSStep (rob_indices : List Nat) (acc : List String × RSMap) (p : String × RS) :
    List String × RSMap :=
  if ¬ p.2.busy then (acc.1, acc.2 ++ [p])
  else
    let should_flush : Bool :=
      (match p.2.dest with | some d => d ∈ rob_indices | none => false) ||
      (match p.2.Qj with | some qj => qj ∈ rob_indices | none => false) ||
      (p.2.hasQk && (match p.2.Qk with | some qk => decide (qk ∈ rob_indices) | none => false)) ||
      ((p.1 = "BEQ1" || p.1 = "BEQ2") && !(rob_indices = ([] : List Nat)))
    if should_flush then
      (acc.1 ++ [p.1], acc.2 ++ [(p.1, { p.2.pop with state := none, dest := none })])
    else (acc.1, acc.2 ++ [p])

/-- `TomasuloCore.flush`: flush the ROB tail back to (and keeping) `index`,
then clear RAT mappings and reservation-station slots that reference any
flushed ROB index (plus the unconditional clearing of busy BEQ slots when
anything was flushed), recording the flushed RS keys for the FU flush.
Returns the flushed instruction ids. -/
def flush (s : Sim) (index : Nat) : List (Option Nat) × Sim :=
  let ((rob_indices, _dest_regs, instr_ids), rob') := ROB.flush_tail s.rob index
  let rat' := s.rat.map (fun reg =>
    match reg with
    | some k => if k ∈ rob_indices then none else some k
    | none => none)
  let flushed := s.reservation_stations.foldl (flushRSStep rob_indices) ([], [])
  (instr_ids,
   { s with rob := rob', rat := rat', reservation_stations := flushed.2,
            flushed_rs_entry_ids := flushed.1 })

/-- `TomasuloCore.notify_branch_result`.  The older-branch priority check
runs only when the pending redirect is label-based
(`_pending_branch_label is not None`); an address-based pending redirect
(from a RET) is overwritten unconditionally. -/
def notify_branch_result (s : Sim) (rob_index : Nat) (taken : Bool) (target : Int)
    (label : Option String) : Option Int × Sim :=
  if taken then
    let store := fun (s : Sim) =>
      let (flushed_ids, s1) := flush s rob_index
      (some target,
       { s1 with
         recently_flushed_ids := s1.recently_flushed_ids ++ flushed_ids.filterMap id,
         pending_branch_label := label,
         pending_branch_rob_index := some rob_index,
         pending_branch_target :=
           if label = none then some target else s1.pending_branch_target })
    match s.pending_branch_label with
    | some _ =>
      match s.pending_branch_rob_index with
      | some pending =>
        let dist_current := s.rob.dist rob_index
        let dist_pending := s.rob.dist pending
        if dist_current < dist_pending then store s else (none, s)
      | none => store s
    | none => store s
  else (none, s)

/-- `TomasuloCore.mark_rs_executing`. -/
def mark_rs_executing (s : Sim) (rs_entry_id : String) : Sim :=
  { s with reservation_stations :=
      s.reservation_stations.modify rs_entry_id (·.change_state "EXECUTING") }

/-- `TomasuloCore.clear_rs_entry`. -/
def clear_rs_entry (s : Sim) (rs_entry_id : String) : Sim :=
  { s with reservation_stations := s.reservation_stations.modify rs_entry_id (·.pop) }

/-- `TomasuloCore.get_oldest_ready_rob_index` returns the ROB head. -/
def get_oldest_ready_rob_index (s : Sim) : Nat := s.rob.head

/-- The per-slot view built by `get_ready_rs_entries` (`rs.__dict__` minus
`Op`/`busy`/`state`, plus the converted instruction dictionary).  Fields
that do not exist on the slot's class are `none`. -/
structure RSSnapshot where
  id : String
  dest : Option Nat := none
  instruction : Option InstrDict := none
  Vj : Option Int := none
  Qj : Option Nat := none
  Vk : Option Int := none
  Qk : Option Nat := none
  A : Option Int := none
  PC : Option Nat := none
  deriving DecidableEq, Repr

def snapshotRS (key : String) (rs : RS) : RSSnapshot :=
  { id := key, dest := rs.dest,
    instruction := rs.instruction.map (fun i =>
      { op := i.name, instr_id := some i.instr_id, rob_index := rs.dest,
        rA := i.rA, rB := i.rB, rC := i.rC,
        immediate := i.immediate, label := i.label }),
    Vj := rs.Vj, Qj := rs.Qj,
    Vk := if rs.hasQk then rs.Vk else none,
    Qk := if rs.hasQk then rs.Qk else none,
    A := if rs.hasA then rs.A else none,
    PC := if rs.hasPC then rs.PC else none }

/-- `TomasuloCore.get_ready_rs_entries` (ready slots, including ones
already in `EXECUTING` state — `is_ready` does not look at `state`). -/
def get_ready_rs_entries (s : Sim) : List RSSnapshot :=
  s.reservation_stations.filterMap (fun p =>
    if p.2.is_ready then some (snapshotRS p.1 p.2) else none)

/-- `TomasuloCore.get_rs_operands`. -/
def get_rs_operands (entry : RSSnapshot) : Operands :=
  let o : Operands :=
    { Vj := entry.Vj, Vk := entry.Vk, Qj := entry.Qj, Qk := entry.Qk,
      immediate := entry.A, pc := entry.PC }
  match entry.instruction with
  | some instr =>
    let o := if instr.op = "BEQ" ∧ o.immediate = none then
        { o with immediate := some ((instr.immediate).getD 0) }
      else o
    if entry.PC ≠ none then o     -- `operands['pc'] = PC` again (already set)
    else if (instr.op = "BEQ" ∨ instr.op = "CALL" ∨ instr.op = "RET") ∧ o.pc = none then
      { o with pc := some 0 }
    else o
  | none => o

/-- The commit-timing recording of `commit_rob_entry`: record
`commit = cycle` only when the instruction has a timing row with no commit
yet whose `finish_exec` and `write` are set and `cycle ≥ write`. -/
def commit_record_timing (s : Sim) (cycle : Nat) (oldest : ROBEntry) : Sim :=
  match oldest.instr_id with
  | none => s
  | some id =>
    match s.timing id with
    | none => s
    | some timing =>
      if timing.commit = none then
        match timing.finish_exec, timing.write with
        | some _, some w =>
          if w ≤ cycle then { s with timing := s.timing.record_commit id cycle } else s
        | _, _ => s
      else s

/-- The architectural effect of `commit_rob_entry` (register-file write and
RAT clearing per opcode class); it never touches the timing tracker. -/
def commit_apply_arch (s : Sim) (oldest : ROBEntry) : Sim :=
  if oldest.name = "LOAD" ∨ oldest.name = "ADD" ∨ oldest.name = "SUB" ∨
     oldest.name = "NAND" ∨ oldest.name = "MUL" then
    let s := if oldest.value ≠ .pnone then
        { s with reg_file := s.reg_file.writeN ((oldest.dest).getD 0) oldest.value.toIntD }
      else s
    match oldest.dest with
    | some d => clear_rat_mapping s d s.rob.head
    | none => s
  else if oldest.name = "CALL" then
    let s := match oldest.value with
      | .pnone => s
      | .pcall _ r => { s with reg_file := s.reg_file.writeN ((oldest.dest).getD 0) r }
      | .pint v => { s with reg_file := s.reg_file.writeN ((oldest.dest).getD 0) v }
      | _ => s      -- a dict without "return_address": `.get` yields None, no write
    match oldest.dest with
    | some d => clear_rat_mapping s d s.rob.head
    | none => s
  else if oldest.name = "STORE" then s
  else
    match oldest.dest with
    | some d => clear_rat_mapping s d s.rob.head
    | none => s

/-- `TomasuloCore.commit_rob_entry`: commit the head ROB entry if ready
(recording the commit cycle only under the `commit_record_timing`
conditions), apply the architectural effect, and pop.  Returns
`(dest, value)` on a commit, as the source does. -/
def commit_rob_entry (s : Sim) (cycle : Nat) : Option (Option Nat × PyVal) × Sim :=
  if s.rob.count = 0 then (none, s)
  else match s.rob.peek_front with
  | none => (none, s)
  | some oldest =>
    if oldest.ready then
      let s := commit_record_timing s cycle oldest
      let s := commit_apply_arch s oldest
      let s := { s with rob := (s.rob.dequeue_front).1 }
      (some (oldest.dest, oldest.value), s)
    else (none, s)

/-! ### `src/interfaces/issue_unit.py` — `IssueUnit` -/

/-- `IssueUnit.get_operand`: `(True, value)` when the operand can be read
now (register file, or a ready ROB entry), `(False, rob_index)` when it
must wait.  A ready CALL composite yields its `return_address`; ROB entries
of BEQ/STORE instructions (which occupy a `dest` slot but produce no
register value) fall back to the register file, as does a ready entry whose
value is `None`.  (The `(True, None)` case the caller guards against can
therefore never arise.) -/
def get_operand (s : Sim) (reg : Nat) : Bool × Int :=
  match ROB.find s.rob reg with
  | none => (true, s.reg_file.readN reg)
  | some (rob_entry, index) =>
    if rob_entry.name = "BEQ" ∨ rob_entry.name = "STORE" then
      (true, s.reg_file.readN reg)
    else if rob_entry.ready then
      match rob_entry.value with
      | .pnone => (true, s.reg_file.readN reg)
      | .pint v => (true, v)
      | v => (true, v.returnAddressD)
    else (false, (index : Int))

/-- `IssueUnit.get_source_operands`: `(Vj, Qj, Vk, Qk)`. -/
def get_source_operands (s : Sim) (instruction : Instruction) :
    Option Int × Option Nat × Option Int × Option Nat :=
  let name := instruction.name
  let rBrC : Option Nat × Option Nat :=
    if name = "BEQ" then (instruction.rA, instruction.rB)
    else if name = "STORE" then (instruction.rA, instruction.rB)
    else if name = "RET" then (some 1, none)
    else (instruction.rB, instruction.rC)
  let VjQj : Option Int × Option Nat :=
    match rBrC.1 with
    | some r =>
      let fv := get_operand s r
      if fv.1 then (some fv.2, none) else (none, some fv.2.toNat)
    | none => (none, none)
  let VkQk : Option Int × Option Nat :=
    match rBrC.2 with
    | some r =>
      let fv := get_operand s r
      if fv.1 then (some fv.2, none) else (none, some fv.2.toNat)
    | none => (none, none)
  (VjQj.1, VjQj.2, VkQk.1, VkQk.2)

/-- `IssueUnit.rs_issue`: place the instruction in the first free slot of
its class, or fail.  (For BEQ, remember that the source call would raise
`TypeError` — see `RS.beqPush`.) -/
def rs_issue (s : Sim) (instr : Instruction) (rob_index : Nat) : Bool × Sim :=
  let name := instr.name
  let ops := get_source_operands s instr
  let Vj := ops.1
  let Qj := ops.2.1
  let Vk := ops.2.2.1
  let Qk := ops.2.2.2
  let free := fun key => ¬ (s.reservation_stations.get key).busy
  let push := fun key (f : RS → RS) =>
    (true, { s with reservation_stations := s.reservation_stations.modify key f })
  if name = "LOAD" then
    if free "LOAD1" then push "LOAD1" (·.loadPush instr instr.immediate rob_index Vj Qj)
    else if free "LOAD2" then push "LOAD2" (·.loadPush instr instr.immediate rob_index Vj Qj)
    else (false, s)
  else if name = "STORE" then
    if free "STORE" then push "STORE" (·.storePush instr instr.immediate rob_index Vj Qj Vk Qk)
    else (false, s)
  else if name = "BEQ" then
    if free "BEQ1" then push "BEQ1" (·.beqPush instr instr.immediate rob_index Vj Qj Vk Qk)
    else if free "BEQ2" then push "BEQ2" (·.beqPush instr instr.immediate rob_index Vj Qj Vk Qk)
    else (false, s)
  else if name = "CALL" ∨ name = "RET" then
    if free "CALL/RET" then
      let ret_Vj := if name = "RET" then Vj else none
      let ret_Qj := if name = "RET" then Qj else none
      push "CALL/RET"
        (·.callPush instr name rob_index instr.immediate ret_Vj ret_Qj (some s.next_index))
    else (false, s)
  else if name = "ADD" ∨ name = "SUB" then
    if free "ADD/SUB1" then push "ADD/SUB1" (·.aluPush instr name rob_index Vj Qj Vk Qk)
    else if free "ADD/SUB2" then push "ADD/SUB2" (·.aluPush instr name rob_index Vj Qj Vk Qk)
    else if free "ADD/SUB3" then push "ADD/SUB3" (·.aluPush instr name rob_index Vj Qj Vk Qk)
    else if free "ADD/SUB4" then push "ADD/SUB4" (·.aluPush instr name rob_index Vj Qj Vk Qk)
    else (false, s)
  else if name = "NAND" then
    if free "NAND" then push "NAND" (·.aluPush instr name rob_index Vj Qj Vk Qk)
    else (false, s)
  else if name = "MUL" then
    if free "MUL" then push "MUL" (·.aluPush instr name rob_index Vj Qj Vk Qk)
    else (false, s)
  else (false, s)

/-- `IssueUnit.is_instruction_in_flight`: the id sits in the ROB or in a
busy reservation station. -/
def is_instruction_in_flight (s : Sim) (instr_id : Nat) : Bool :=
  (decide (0 < s.rob.count) && (s.rob.traverse).any (fun e =>
      match e with
      | some en => en.instr_id = some instr_id
      | none => false)) ||
  s.reservation_stations.any (fun p =>
    p.2.busy && (match p.2.instruction with
      | some i => decide (i.instr_id = instr_id)
      | none => false))

/-- `IssueUnit.has_instructions`. -/
def has_instructions (s : Sim) : Bool := s.next_index < s.instructions.length

/-- `IssueUnit.jump_to_index`: retarget the issue pointer; a backward jump
marks a loop target in `_last_jump_index`, a forward jump clears it. -/
def jump_to_index (s : Sim) (target_index : Nat) : Sim × Bool :=
  if target_index < s.instructions.length then
    let lj := if target_index < s.next_index then some target_index
      else if s.next_index < target_index then none
      else s.last_jump_index
    ({ s with last_jump_index := lj, next_index := target_index }, true)
  else (s, false)

/-- `IssueUnit.issue_next`: the Issue stage.  Returns
`(instruction-or-None, success, state)`. -/
def issue_next (s : Sim) (cycle : Nat) : Option Instruction × Bool × Sim :=
  if s.next_index < s.instructions.length then
    let instr := s.instructions.getD s.next_index default
    if is_instruction_in_flight s instr.instr_id &&
       ! (match s.last_jump_index with
          | some j => decide (j ≤ s.next_index)
          | none => false) then
      (none, false, s)
    else
      -- `instr.set_issue_cycle(cycle)` mutates the shared instruction object
      let instr := { instr with issue_cycle := some cycle }
      let s := { s with instructions := s.instructions.set s.next_index instr,
                        timing := s.timing.record_issue instr.instr_id cycle }
      -- (the register-file reads of rA/rB/rC here have no effect and are omitted)
      let rob_index := s.rob.tail % robSize
      let issued := rs_issue s instr rob_index
      if ¬ issued.1 then (none, false, issued.2)
      else
        let s := issued.2
        let dest_reg : Option Nat :=
          if instr.name = "CALL" then some 1
          else if instr.name = "RET" then none
          else instr.rA
        let pushed := ROB.push s.rob instr.name dest_reg (some instr.instr_id)
        let s := { s with rob := pushed.1 }
        if ¬ pushed.2 then (none, false, s)
        else
          let rob_index := (s.rob.tail + robSize - 1) % robSize
          let s := match dest_reg with
            | some d => rat_mapping s d rob_index
            | none => s
          let s := { s with issued_instructions := s.issued_instructions ++ [instr],
                            next_index := s.next_index + 1 }
          (some instr, true, s)
  else (none, false, s)

/-- The mutations `issue_next` performs *before* its structural-stall
checks: `instr.set_issue_cycle(cycle)` on the shared instruction object and
`timing_tracker.record_issue` (`issue_unit.py`, start of the issue path).
Returns the mutated instruction together with the mutated state. -/
def issue_mut (s : Sim) (cycle : Nat) : Instruction × Sim :=
  let instr := { s.instructions.getD s.next_index default with issue_cycle := some cycle }
  (instr, { s with instructions := s.instructions.set s.next_index instr,
                   timing := s.timing.record_issue instr.instr_id cycle })

/-- The part of `issue_next` that follows the in-flight gate, written in
terms of `issue_mut`; `issue_next_eq_tail` proves it equal to `issue_next`
whenever the gate lets the instruction through. -/
def issue_tail (s : Sim) (cycle : Nat) : Option Instruction × Bool × Sim :=
  let instr := (issue_mut s cycle).1
  let s1 := (issue_mut s cycle).2
  let rob_index := s1.rob.tail % robSize
  let issued := rs_issue s1 instr rob_index
  if ¬ issued.1 then (none, false, issued.2)
  else
    let s := issued.2
    let dest_reg : Option Nat :=
      if instr.name = "CALL" then some 1
      else if instr.name = "RET" then none
      else instr.rA
    let pushed := ROB.push s.rob instr.name dest_reg (some instr.instr_id)
    let s := { s with rob := pushed.1 }
    if ¬ pushed.2 then (none, false, s)
    else
      let rob_index := (s.rob.tail + robSize - 1) % robSize
      let s := match dest_reg with
        | some d => rat_mapping s d rob_index
        | none => s
      let s := { s with issued_instructions := s.issued_instructions ++ [instr],
                        next_index := s.next_index + 1 }
      (some instr, true, s)

/-! ### `src/execution/writeback.py` — `WriteBackStage` -/

/-- `WriteBackStage.add_result`. -/
def add_result (s : Sim) (rob_index : Nat) (value : PyVal) (instruction_type : String)
    (instruction : InstrDict) (rs_entry_id : Option String) : Sim :=
  { s with write_queue := s.write_queue ++
      [{ rob_index := rob_index, value := value, instruction_type := instruction_type,
         instruction := instruction, rs_entry_id := rs_entry_id }] }

/-- `WriteBackStage.handle_store_write`. -/
def handle_store_write (s : Sim) (address value : Int) : Sim :=
  { s with mem := s.mem.write address value }

/-- `WriteBackStage.process_write_back`: pick the queue entry whose ROB
index matches the head (falling back to the stably-sorted front), remove it
from the queue, and attempt the CDB broadcast.  On success the result is
applied (memory write for STORE, ROB update, forwarding, write-cycle
recording, RS release); on failure the entry has already left the queue and
sits only in `cdb.pending_broadcasts`. -/
def process_write_back (s : Sim) (current_cycle : Nat) : Sim :=
  if s.write_queue = [] then s
  else
    let oldest_rob := get_oldest_ready_rob_index s
    let picked : Option (WBEntry × List WBEntry) :=
      match extractFirstWB (fun r => r.rob_index = oldest_rob) s.write_queue with
      | some pr => some pr
      | none =>
        match sortByRob s.write_queue with
        | r :: rest => some (r, rest)
        | [] => none
    match picked with
    | none => s      -- unreachable: the queue is non-empty
    | some (result, rest) =>
      let s := { s with write_queue := rest }
      let br := s.cdb.broadcast result.rob_index result.value result.instruction_type
      let s := { s with cdb := br.1 }
      if br.2 then
        let s :=
          if result.instruction_type = "STORE" then
            let s := match result.value with
              | .pstore a v => handle_store_write s a v
              | .pbranch _ _ | .pcall _ _ | .pret _ =>
                handle_store_write s 0 0   -- dict without address/value keys: defaults 0
              | .pint a => handle_store_write s a 0  -- fallback branch (`store_value` key absent)
              | .pnone => s                -- would raise on `write(None, …)`; unreachable
            update_rob_value s result.rob_index .pnone
          else if result.instruction_type = "BEQ" then
            update_rob_value s result.rob_index .pnone
          else if result.instruction_type = "CALL" then
            update_rob_value s result.rob_index result.value
          else if result.instruction_type = "RET" then
            update_rob_value s result.rob_index .pnone
          else
            if result.value.isDict then
              update_rob_value s result.rob_index .pnone
            else
              let s := update_rob_value s result.rob_index result.value
              let s := forward_to_rs s result.rob_index result.value
              update_rat s result.rob_index result.value
        let s := match result.instruction.instr_id with
          | some id => { s with timing := s.timing.record_write id current_cycle }
          | none => s   -- a `None`-keyed timing row would be unobservable
        match result.rs_entry_id with
        | some rsid => clear_rs_entry s rsid
        | none => s
      else s

/-! ### `src/execution/execution_manager.py` — `ExecutionManager` -/

/-- Tick one unit list, collecting `(position, unit-after-tick)` for the
units that finished this cycle. -/
def tickListGo (mem : Memory) : Nat → List FU → List FU × List (Nat × FU)
  | _, [] => ([], [])
  | i, fu :: rest =>
    let tr := fu.tick mem
    let rr := tickListGo mem (i + 1) rest
    (tr.1 :: rr.1, (if tr.2 then [(i, tr.1)] else []) ++ rr.2)

/-- `FUPool.tick_all`: tick every unit, in the source's fixed list order,
returning the finished executions tagged with their pool location. -/
def FUPool.tick_all (p : FUPool) (mem : Memory) : FUPool × List (FUKind × Nat × FU) :=
  let a := tickListGo mem 0 p.add_sub_units
  let n := tickListGo mem 0 p.nand_units
  let m := tickListGo mem 0 p.mul_units
  let l := tickListGo mem 0 p.load_units
  let st := tickListGo mem 0 p.store_units
  let b := tickListGo mem 0 p.beq_units
  let c := tickListGo mem 0 p.call_ret_units
  ({ add_sub_units := a.1, nand_units := n.1, mul_units := m.1, load_units := l.1,
     store_units := st.1, beq_units := b.1, call_ret_units := c.1 },
   a.2.map (fun x => (.addsub, x)) ++ n.2.map (fun x => (.nand, x)) ++
   m.2.map (fun x => (.mul, x)) ++ l.2.map (fun x => (.load, x)) ++
   st.2.map (fun x => (.store, x)) ++ b.2.map (fun x => (.beq, x)) ++
   c.2.map (fun x => (.callret, x)))

/-- Replace the unit at a pool location by its reset (`fu.reset()` at the
end of `_handle_finished_execution`). -/
def FUPool.resetAt (p : FUPool) (k : FUKind) (i : Nat) : FUPool :=
  match k with
  | .addsub => { p with add_sub_units := p.add_sub_units.set i ((p.add_sub_units.getD i FU.mkAddSub).reset) }
  | .nand => { p with nand_units := p.nand_units.set i ((p.nand_units.getD i FU.mkNand).reset) }
  | .mul => { p with mul_units := p.mul_units.set i ((p.mul_units.getD i FU.mkMul).reset) }
  | .load => { p with load_units := p.load_units.set i ((p.load_units.getD i FU.mkLoad).reset) }
  | .store => { p with store_units := p.store_units.set i ((p.store_units.getD i FU.mkStore).reset) }
  | .beq => { p with beq_units := p.beq_units.set i ((p.beq_units.getD i FU.mkBeq).reset) }
  | .callret => { p with call_ret_units := p.call_ret_units.set i ((p.call_ret_units.getD i FU.mkCallRet).reset) }

/-- `FUPool.flush_rs_entries`: reset every unit whose RS id is among the
flushed ones and which is still executing or finished. -/
def FUPool.flush_rs_entries (p : FUPool) (rs_entry_ids : List String) : FUPool :=
  if rs_entry_ids = [] then p
  else
    let f := fun (fu : FU) =>
      if (match fu.rs_entry_id with
          | some r => decide (r ∈ rs_entry_ids)
          | none => false) && (fu.is_busy || fu.state = .finished) then fu.reset else fu
    { add_sub_units := p.add_sub_units.map f, nand_units := p.nand_units.map f,
      mul_units := p.mul_units.map f, load_units := p.load_units.map f,
      store_units := p.store_units.map f, beq_units := p.beq_units.map f,
      call_ret_units := p.call_ret_units.map f }

/-- `ExecutionManager._handle_finished_execution` for one finished unit
(`fin` carries the pool location and the unit's state at finish time). -/
def handle_finished (current_cycle : Nat) (s : Sim) (fin : FUKind × Nat × FU) : Sim :=
  let fu := fin.2.2
  let instruction := fu.current_instruction
  let inst_type := (instruction.map (·.op)).getD ""
  let rob_index := instruction.bind (·.rob_index)
  let instr_id := instruction.bind (·.instr_id)
  let s := match instr_id with
    | some id => { s with timing := s.timing.record_finish_exec id current_cycle }
    | none => s
  let result0 := (fu.result).getD .pnone
  let sres : Sim × PyVal :=
    if inst_type = "BEQ" then
      let operand_a := (fu.operands.Vj).getD 0
      let operand_b := (fu.operands.Vk).getD 0
      let offset := (fu.operands.immediate).getD 0
      let pc : Int := ((fu.operands.pc).getD 0 : Nat)
      let branch_result := BranchEvaluator.evaluate_beq operand_a operand_b offset pc
      let branch_label := instruction.bind (·.label)
      let tt : Bool × Int := match branch_result with
        | .pbranch t tg => (t, tg)
        | _ => (false, 0)
      let nb := notify_branch_result s ((rob_index).getD 0) tt.1 tt.2 branch_label
      (nb.2, branch_result)
    else if inst_type = "CALL" then
      let label_offset := (fu.operands.immediate).getD 0
      let pc : Int := ((fu.operands.pc).getD 0 : Nat)
      let call_result := BranchEvaluator.evaluate_call label_offset pc
      let call_label := instruction.bind (·.label)
      let target : Int := match call_result with
        | .pcall t _ => t
        | _ => 0
      let nb := notify_branch_result s ((rob_index).getD 0) true target call_label
      (nb.2, call_result)
    else if inst_type = "RET" then
      let r1_val := (fu.operands.Vj).getD 0
      let ret_result := BranchEvaluator.evaluate_ret r1_val
      let target : Int := match ret_result with
        | .pret t => t
        | _ => 0
      let nb := notify_branch_result s ((rob_index).getD 0) true target none
      (nb.2, ret_result)
    else if inst_type = "STORE" then
      (s, .pstore result0.toIntD fu.get_store_value)
    else (s, result0)
  let s := sres.1
  let s := match rob_index with
    | some k => add_result s k sres.2 inst_type (instruction.getD { op := "" }) fu.rs_entry_id
    | none => s
  { s with fu_pool := s.fu_pool.resetAt fin.1 fin.2.1 }

/-- `ExecutionManager._start_ready_instructions`: the Dispatch stage. -/
def start_ready_instructions (s : Sim) (current_cycle : Nat) : Sim :=
  let ready_rs_entries := get_ready_rs_entries s
  ready_rs_entries.foldl (fun s entry =>
    match entry.instruction with
    | none => s
    | some instruction =>
      let inst_type := instruction.op
      let rs_entry_id := entry.id
      if ¬ s.fu_pool.is_available inst_type then s
      else
        match s.fu_pool.fu_map inst_type with
        | none => s
        | some l =>
          match l.findIdx? (fun fu => ¬ fu.is_busy) with
          | none => s
          | some i =>
            let fu := l.getD i FU.mkAddSub
            let operands := get_rs_operands entry
            let fu' := fu.start_execution instruction rs_entry_id operands
            let s := { s with fu_pool := s.fu_pool.setList inst_type (l.set i fu') }
            let s := match instruction.instr_id with
              | some id => { s with timing := s.timing.record_start_exec id current_cycle }
              | none => s
            mark_rs_executing s rs_entry_id) s

/-- `ExecutionManager.execute_cycle`: CDB clear, write-back pass 1, FU
tick, finish handling, write-back pass 2, dispatch. -/
def execute_cycle (s : Sim) (current_cycle : Nat) : Sim :=
  let s := { s with cdb := s.cdb.clear }
  let s := process_write_back s current_cycle
  let ticked := s.fu_pool.tick_all s.mem
  let s := { s with fu_pool := ticked.1 }
  let s := ticked.2.foldl (handle_finished current_cycle) s
  let s := process_write_back s current_cycle
  start_ready_instructions s current_cycle

/-! ### `src/integration.py` — `IntegratedSimulator` -/

/-- All units, in the order `_is_complete` checks them. -/
def FUPool.allUnits (p : FUPool) : List FU :=
  p.add_sub_units ++ p.nand_units ++ p.mul_units ++ p.load_units ++
  p.store_units ++ p.beq_units ++ p.call_ret_units

/-- `IntegratedSimulator._is_complete`. -/
def is_complete (s : Sim) : Bool :=
  if 0 < s.rob.count then false
  else if (s.fu_pool.allUnits).any (·.is_busy) then false
  else if s.reservation_stations.any (fun p => p.2.busy) then false
  else if s.instructions.length ≤ s.next_index then true
  else if ¬ has_instructions s then
    -- dead branch in the source (`has_instructions` is true here)
    (match s.last_jump_index with
     | some _ => false
     | none => true)
  else false

/-- The commit loop of `run` (step 3): repeat `commit_rob_entry` until it
returns `None`.  Each successful commit pops one ROB entry, so the entry
count bounds the iterations; once the call returns `None` the state no
longer changes, so exhausting the fuel at the `None` point is harmless. -/
def commitLoop : Nat → Nat → Sim → Sim
  | 0, _, s => s
  | fuel + 1, cycle, s =>
    let cr := commit_rob_entry s cycle
    match cr.1 with
    | none => cr.2
    | some _ => commitLoop fuel cycle cr.2

/-- One iteration of the `run` loop body (after `current_cycle` has been
incremented to `cycle`): issue, execute, flushed-id bookkeeping, FU flush,
branch-redirect application, commit loop. -/
def cycleBody (cycle : Nat) (s : Sim) : Sim :=
  -- Step 1: issue next instruction (if available)
  let s :=
    if has_instructions s then
      let ir := issue_next s cycle
      match ir.1 with
      | some issued =>
        if ir.2.1 ∧ issued.instr_id ∈ (ir.2.2).flushed_instructions then
          { ir.2.2 with flushed_instructions :=
              (ir.2.2).flushed_instructions.filter (· ≠ issued.instr_id) }
        else ir.2.2
      | none => ir.2.2
    else s
  -- Step 2: execute one cycle
  let s := execute_cycle s cycle
  -- Step 2.5: track flushed instructions
  let s := { s with
    flushed_instructions := s.recently_flushed_ids.foldl
      (fun acc id => if id ∈ acc then acc else acc ++ [id]) s.flushed_instructions,
    recently_flushed_ids := [] }
  -- Step 2.6: flush functional units for flushed RS entries
  let s :=
    if s.flushed_rs_entry_ids ≠ [] then
      { s with fu_pool := s.fu_pool.flush_rs_entries s.flushed_rs_entry_ids,
               flushed_rs_entry_ids := [] }
    else s
  -- Step 2.6: apply a pending branch redirect (labels are non-empty strings,
  -- so Python's truthiness test on the label is `is not None` here)
  let s :=
    match s.pending_branch_label with
    | some label =>
      let s' := match s.label_map.lookup label with
        | some target_index => (jump_to_index s target_index).1
        | none => s
      { s' with pending_branch_label := none, pending_branch_rob_index := none }
    | none =>
      match s.pending_branch_target with
      | some target =>
        let s' :=
          if 0 < target ∧ target < s.instructions.length then
            (jump_to_index s target.toNat).1
          else { s with next_index := s.instructions.length }
        { s' with pending_branch_target := none }
      | none => s
  -- Step 3: commit while possible
  commitLoop s.rob.count cycle s

/-- The `while` loop of `IntegratedSimulator.run`: guard
`current_cycle < max_cycles`, completion check, then one cycle.  (The
source's second completion check after commit merges with the next
iteration's leading check: both exits return the same state.) -/
def runLoop (max_cycles : Nat) : Nat → Nat → Sim → Nat × Sim
  | 0, cycle, s => (cycle, s)
  | fuel + 1, cycle, s =>
    if cycle < max_cycles then
      if is_complete s then (cycle, s)
      else runLoop max_cycles fuel (cycle + 1) (cycleBody (cycle + 1) s)
    else (cycle, s)

/-- `IntegratedSimulator.run` with the default watchdog
`max_cycles = 1000`; returns the final cycle counter and state. -/
def Sim.run (s : Sim) : Nat × Sim := runLoop 1000 1000 0 s

/-! ### Specification-side predicates and concrete inputs -/

/-- "`a ≤ b` whenever both cycles are set". -/
def cyclesLe (a b : Option Nat) : Bool :=
  match a, b with
  | some x, some y => x ≤ y
  | _, _ => true

/-- The §8 timing-chain invariant for one timing row: among the recorded
stage cycles, `issue ≤ start_exec ≤ finish_exec ≤ write ≤ commit` (all
ordered pairs of set fields compare correctly). -/
def TimingEntry.chainOk (e : TimingEntry) : Bool :=
  cyclesLe e.issue e.start_exec && cyclesLe e.issue e.finish_exec &&
  cyclesLe e.issue e.write && cyclesLe e.issue e.commit &&
  cyclesLe e.start_exec e.finish_exec && cyclesLe e.start_exec e.write &&
  cyclesLe e.start_exec e.commit && cyclesLe e.finish_exec e.write &&
  cyclesLe e.finish_exec e.commit && cyclesLe e.write e.commit

/-- A two-instruction program whose CALL jumps back to index 0: the ADD is
re-issued after the redirect while its first dynamic instance has already
recorded later stage cycles. -/
def progLoop : List Instruction :=
  [{ name := "ADD", rA := some 2, rB := some 0, rC := some 0, instr_id := 1 },
   { name := "CALL", label := some "L0", instr_id := 2 }]

def simLoop : Sim := Sim.init progLoop [("L0", 0)] Memory.init

/-- The run state of `simLoop` at the end of cycle 3: the CDB is busy with
the ADD broadcast and the CALL result is still queued for write-back. -/
def simLoopAfter3 : Sim := (runLoop 1000 3 0 simLoop).2

/-- Two NAND instructions: the second stalls on the single NAND
reservation station. -/
def progNandPair : List Instruction :=
  [{ name := "NAND", rA := some 3, rB := some 1, rC := some 2, instr_id := 1 },
   { name := "NAND", rA := some 4, rB := some 1, rC := some 2, instr_id := 2 }]

/-- The state after issuing the first NAND in cycle 1: the NAND slot is
busy, so issuing the second NAND in cycle 2 is a structural stall. -/
def simNandStall : Sim := (issue_next (Sim.init progNandPair [] Memory.init) 1).2.2

/-- A core state with six live ROB entries (head 0, tail 6) and a pending
*address-based* (RET) redirect requested by the branch at ROB index 1:
`pending_branch_label = None`, `pending_branch_rob_index = 1`,
`pending_branch_target = 7`. -/
def simTwoBranches : Sim :=
  { Sim.init [] [] Memory.init with
    rob := { queue :=
               [some { name := "ADD", dest := some 2, instr_id := some 1 },
                some { name := "RET", dest := none, instr_id := some 2 },
                some { name := "ADD", dest := some 3, instr_id := some 3 },
                some { name := "ADD", dest := some 4, instr_id := some 4 },
                some { name := "ADD", dest := some 5, instr_id := some 5 },
                some { name := "BEQ", dest := some 6, instr_id := some 6 },
                none, none],
             head := 0, tail := 6, count := 6 },
    pending_branch_label := none,
    pending_branch_rob_index := some 1,
    pending_branch_target := some 7 }

/-- A core state for exercising `flush`: three live ROB entries (branch at
index 1, a younger entry at index 2), a RAT mapping to the younger entry,
and busy RS slots whose destination / waiting tag reference it. -/
def simFlushDemo : Sim :=
  { Sim.init [] [] Memory.init with
    rob := { queue :=
               [some { name := "ADD", dest := some 1, instr_id := some 1 },
                some { name := "CALL", dest := some 1, instr_id := some 2 },
                some { name := "ADD", dest := some 2, instr_id := some 3 },
                none, none, none, none, none],
             head := 0, tail := 3, count := 3 },
    rat := [none, none, some 2, none, none, none, none, none],
    reservation_stations := (rsMapInit.modify "ADD/SUB1" (fun rs =>
        { rs with busy := true, Op := some "ADD", dest := some 2,
                  Vj := some 1, Qj := none, Vk := none, Qk := some 2,
                  instruction := some { name := "ADD", rA := some 2, rB := some 0,
                                        rC := some 0, instr_id := 3 } })).modify
      "NAND" (fun rs =>
        { rs with busy := true, Op := some "NAND", dest := some 5,
                  Vj := some 1, Qj := none, Vk := some 2, Qk := none,
                  instruction := some { name := "NAND", rA := some 4, rB := some 0,
                                        rC := some 0, instr_id := 9 } }) }

/-- A state whose ROB head is ready with a timing row that has
`finish_exec` and `write` recorded but no commit yet: committing it at
cycle 5 records `commit = 5 ≥ write = 4`. -/
def simCommitReady : Sim :=
  { Sim.init [] [] Memory.init with
    rob := { queue := [some { name := "ADD", dest := some 2, ready := true,
                              value := .pint 7, instr_id := some 1 },
                       none, none, none, none, none, none, none],
             head := 0, tail := 1, count := 1 },
    timing := fun k => if k = 1 then
        some { issue := some 1, start_exec := some 2, finish_exec := some 3,
               write := some 4 }
      else none }

/-- A sequence of register-file writes, applied in order (the only
state-changing `RegisterFile` operation). -/
def RegisterFile.applyWrites (rf : RegisterFile) (ws : List (Int × Int)) : RegisterFile :=
  ws.foldl (fun rf p => (rf.write p.1 p.2).1) rf

/-- A concrete ADD functional unit mid-execution, used as witness input. -/
def fuArithDemo : FU :=
  { FU.mkAddSub with
    current_instruction := some { op := "ADD" },
    operands := { Vj := some 100, Vk := some 7 } }

end TomSim

namespace TomSim

theorem list_getD_set {α : Type} (l : List α) (j i : Nat) (v d : α) :
    (l.set j v).getD i d = if i = j ∧ j < l.length then v else l.getD i d := by
  by_cases hj : i = j ∧ j < l.length
  · obtain ⟨rfl, hj⟩ := hj
    simp [hj, List.getD_eq_getElem _ _ (by simpa using hj), List.getElem_set]
  · simp only [hj, if_false]
    rcases Nat.lt_or_ge i l.length with h | h
    · rw [List.getD_eq_getElem _ _ (by simpa using h), List.getD_eq_getElem _ _ h]
      rw [List.getElem_set]
      have : ¬ j = i := by
        intro hji
        exact hj ⟨hji.symm, hji ▸ h⟩
      simp [this]
    · rw [List.getD_eq_default _ _ (by simpa using h), List.getD_eq_default _ _ h]

theorem robSize_eq : robSize = 8 := rfl

theorem flushTailGo_spec (index : Nat) (hb : index < robSize) :
    ∀ (fuel : Nat) (q : CQ), q.WF → fuel = q.count →
      q.dist index < q.count →
      ((ROB.flushTailGo index fuel q).2.head = q.head ∧
       (ROB.flushTailGo index fuel q).2.count = q.dist index + 1 ∧
       (ROB.flushTailGo index fuel q).2.queue.length = robSize ∧
       (∀ i, i < robSize → q.dist i ≤ q.dist index →
          (ROB.flushTailGo index fuel q).2.queue.getD i none = q.queue.getD i none) ∧
       (∀ i, i < robSize → q.dist index < q.dist i →
          (ROB.flushTailGo index fuel q).2.queue.getD i none = none) ∧
       (∀ i, i < robSize → q.dist index < q.dist i → q.dist i < q.count →
          i ∈ (ROB.flushTailGo index fuel q).1.1)) := by
  have h8 : robSize = 8 := rfl
  rw [h8] at hb
  intro fuel
  induction fuel with
  | zero =>
    intro q hwf hfc hlt
    exfalso
    omega
  | succ n ih =>
    intro q hwf hfc hlt
    obtain ⟨hlen, hhead, hcnt, htail, hlive⟩ := hwf
    rw [h8] at hhead hcnt
    have hcpos : 0 < q.count := by omega
    have hdix : q.dist index = (index + 8 - q.head) % 8 := by
      simp only [CQ.dist, h8]
    by_cases hstop : (q.tail + robSize - 1) % robSize = index
    · -- the branch entry is already the newest: stop, nothing popped
      have hcd : q.count = q.dist index + 1 := by
        have hstop2 := hstop
        rw [htail, h8] at hstop2
        rw [hdix]
        omega
      simp only [ROB.flushTailGo]
      rw [if_neg (by simp [hstop])]
      refine ⟨rfl, hcd.symm ▸ rfl, hlen, fun i _ _ => rfl, ?_, ?_⟩
      · intro i hi hgt
        have hl := hlive i hi
        have hdec : decide (q.dist i < q.count) = false := by
          simp only [decide_eq_false_iff_not]
          omega
        rw [hdec] at hl
        rcases hq : q.queue.getD i none with _ | e
        · rfl
        · rw [hq] at hl
          simp at hl
      · intro i _ hgt hlt2
        exfalso
        omega
    · -- pop the newest entry and recurse
      have hne : ((q.tail + robSize - 1) % robSize ≠ index ∧ 0 < q.count) := ⟨hstop, hcpos⟩
      have hatl8 : (q.tail + robSize - 1) % robSize < robSize := by
        rw [h8]
        omega
      have hdatl : q.dist ((q.tail + robSize - 1) % robSize) = q.count - 1 := by
        rw [htail, h8]
        simp only [CQ.dist, h8]
        omega
      have huniq : ∀ i, i < 8 → q.dist i = q.count - 1 →
          i = (q.tail + robSize - 1) % robSize := by
        intro i hi hd
        rw [htail, h8]
        simp only [CQ.dist, h8] at hd
        omega
      have hdne : q.dist index ≠ q.count - 1 := by
        intro hdeq
        exact hstop ((huniq index hb hdeq).symm)
      have hdlt : q.dist index < q.count - 1 := by omega
      have hsome : (q.queue.getD ((q.tail + robSize - 1) % robSize) none).isSome = true := by
        rw [hlive _ hatl8, hdatl]
        simp only [decide_eq_true_eq]
        omega
      obtain ⟨e, he⟩ : ∃ e, q.queue.getD ((q.tail + robSize - 1) % robSize) none = some e := by
        rcases hq : q.queue.getD ((q.tail + robSize - 1) % robSize) none with _ | e
        · rw [hq] at hsome
          simp at hsome
        · exact ⟨e, rfl⟩
      have hpeek : q.peek_back = some e := by
        simp only [CQ.peek_back, CQ.is_empty]
        rw [if_neg (by simp only [decide_eq_true_eq]; omega)]
        exact he
      have hdq : (q.dequeue_back).1 =
          { q with queue := q.queue.set ((q.tail + robSize - 1) % robSize) none,
                   tail := (q.tail + robSize - 1) % robSize,
                   count := q.count - 1 } := by
        simp only [CQ.dequeue_back, CQ.is_empty]
        rw [if_neg (by simp only [decide_eq_true_eq]; omega)]
      simp only [ROB.flushTailGo]
      rw [if_pos hne, hpeek, hdq]
      set q1 : CQ :=
        { q with queue := q.queue.set ((q.tail + robSize - 1) % robSize) none,
                 tail := (q.tail + robSize - 1) % robSize,
                 count := q.count - 1 } with hq1
      have hq1head : q1.head = q.head := rfl
      have hq1count : q1.count = q.count - 1 := rfl
      have hq1queue : q1.queue = q.queue.set ((q.tail + robSize - 1) % robSize) none := rfl
      have hdisteq : ∀ j, q1.dist j = q.dist j := by
        intro j
        simp only [CQ.dist, hq1head]
      have hwf1 : q1.WF := by
        refine ⟨?_, ?_, ?_, ?_, ?_⟩
        · rw [hq1queue, List.length_set, hlen]
        · rw [hq1head, h8]
          exact hhead
        · rw [hq1count, h8]
          omega
        · show q1.tail = (q1.head + q1.count) % robSize
          rw [hq1head, hq1count]
          show (q.tail + robSize - 1) % robSize = (q.head + (q.count - 1)) % robSize
          rw [htail, h8]
          omega
        · intro i hi
          rw [h8] at hi
          rw [hdisteq i, hq1count, hq1queue, list_getD_set, hlen, h8]
          by_cases hiatl : i = (q.tail + robSize - 1) % robSize
          · rw [if_pos ⟨hiatl, by omega⟩]
            have : ¬ (q.dist i < q.count - 1) := by
              rw [hiatl, hdatl]
              omega
            simp [this]
          · rw [if_neg (by rintro ⟨hh, _⟩; exact hiatl hh)]
            rw [hlive i (by omega)]
            have hdnei : q.dist i ≠ q.count - 1 := by
              intro hdeq
              exact hiatl (huniq i hi hdeq)
            by_cases hlt3 : q.dist i < q.count - 1
            · have : q.dist i < q.count := by omega
              simp [hlt3, this]
            · have : ¬ (q.dist i < q.count) := by omega
              simp [hlt3, this]
      have ihq := ih q1 hwf1 (by rw [hq1count]; omega)
        (by rw [hdisteq, hq1count]; omega)
      rcases hrec : ROB.flushTailGo index n q1 with ⟨⟨ri, dr, ii⟩, q2⟩
      rw [hrec] at ihq
      obtain ⟨ih1, ih2, ih3, ih4, ih5, ih6⟩ := ihq
      refine ⟨by rw [ih1, hq1head], ?_, ih3, ?_, ?_, ?_⟩
      · rw [ih2, hdisteq]
      · intro i hi hle
        rw [ih4 i hi (by rw [hdisteq, hdisteq]; exact hle)]
        rw [hq1queue, list_getD_set]
        rw [if_neg ?_]
        rintro ⟨hh, _⟩
        have : q.dist i = q.count - 1 := by rw [hh, hdatl]
        omega
      · intro i hi hgt
        exact ih5 i hi (by rw [hdisteq, hdisteq]; exact hgt)
      · intro i hi hgt hltc
        rw [h8] at hi
        by_cases hieq : q.dist i = q.count - 1
        · have hieq2 : i = (q.tail + robSize - 1) % robSize := huniq i hi hieq
          rw [hieq2]
          exact List.mem_cons_self _ _
        · simp only [List.mem_cons]
          right
          exact ih6 i (by rw [h8]; exact hi) (by rw [hdisteq, hdisteq]; exact hgt)
            (by rw [hdisteq, hq1count]; omega)

end TomSim

namespace TomSim

theorem getD_map_opt {α β : Type} (f : Option α → Option β) (hf : f none = none)
    (l : List (Option α)) (i : Nat) :
    (l.map f).getD i none = f (l.getD i none) := by
  rcases Nat.lt_or_ge i l.length with h | h
  · rw [List.getD_eq_getElem _ _ (by simpa using h), List.getD_eq_getElem _ _ h,
      List.getElem_map]
  · rw [List.getD_eq_default _ _ (by simpa using h), List.getD_eq_default _ _ h, hf]

theorem rs_pop_not_busy (rs : RS) : ({ rs.pop with state := none, dest := none }).busy = false := by
  cases h : rs.kind <;> simp [RS.pop, h]

/-- Every busy slot surviving the RS-clearing fold of `flush` references no
flushed ROB index. -/
theorem flushRS_fold_busy (ri : List Nat) :
    ∀ (l : List (String × RS)) (acc : List String × RSMap),
      (∀ p ∈ acc.2, p.2.busy = true →
        ((∀ d, p.2.dest = some d → d ∉ ri) ∧
         (∀ t, p.2.Qj = some t → t ∉ ri) ∧
         (p.2.hasQk = true → ∀ t, p.2.Qk = some t → t ∉ ri))) →
      ∀ p ∈ (l.foldl (flushRSStep ri) acc).2, p.2.busy = true →
        ((∀ d, p.2.dest = some d → d ∉ ri) ∧
         (∀ t, p.2.Qj = some t → t ∉ ri) ∧
         (p.2.hasQk = true → ∀ t, p.2.Qk = some t → t ∉ ri)) := by
  intro l
  induction l with
  | nil =>
    intro acc hacc p hp
    exact hacc p hp
  | cons x xs ih =>
    intro acc hacc
    simp only [List.foldl_cons]
    apply ih
    intro p hp hbusy
    simp only [flushRSStep] at hp
    split at hp
    · -- the slot was not busy: appended unchanged
      rw [List.mem_append] at hp
      rcases hp with hp | hp
      · exact hacc p hp hbusy
      · simp only [List.mem_singleton] at hp
        subst hp
        rename_i hnb
        simp only [Bool.not_eq_true] at hnb
        rw [hnb] at hbusy
        cases hbusy
    · split at hp
      · -- flushed: appended cleared (not busy)
        rw [List.mem_append] at hp
        rcases hp with hp | hp
        · exact hacc p hp hbusy
        · simp only [List.mem_singleton] at hp
          subst hp
          rw [rs_pop_not_busy] at hbusy
          cases hbusy
      · -- kept: should_flush is false
        rw [List.mem_append] at hp
        rcases hp with hp | hp
        · exact hacc p hp hbusy
        · simp only [List.mem_singleton] at hp
          subst hp
          rename_i hsf
          simp only [Bool.or_eq_true, not_or, Bool.and_eq_true] at hsf
          obtain ⟨⟨⟨hA, hB⟩, hC⟩, -⟩ := hsf
          refine ⟨?_, ?_, ?_⟩
          · intro d hd
            rw [hd] at hA
            simpa using hA
          · intro t ht
            rw [ht] at hB
            simpa using hB
          · intro hqk t ht
            intro hmem
            exact hC ⟨hqk, by rw [ht]; simpa using hmem⟩

end TomSim

namespace TomSim

/-- C3: after a taken-branch flush for the branch at ROB index `b`, the ROB
keeps exactly the entries from the head up to and including `b` (head
unchanged, count = dist(b)+1, cells up to `b` intact, strictly younger
cells cleared), and afterwards no RAT entry and no busy reservation-station
slot (via `dest`, `Qj`, or — on slots that have one — `Qk`) references any
discarded ROB index. -/
theorem flush_taken_branch (s : Sim) (b : Nat)
    (hwf : s.rob.WF) (hb : b < robSize) (hlive : s.rob.dist b < s.rob.count) :
    ((flush s b).2.rob.head = s.rob.head ∧
     (flush s b).2.rob.count = s.rob.dist b + 1 ∧
     (∀ i, i < robSize → s.rob.dist i ≤ s.rob.dist b →
        (flush s b).2.rob.queue.getD i none = s.rob.queue.getD i none) ∧
     (∀ i, i < robSize → s.rob.dist b < s.rob.dist i →
        (flush s b).2.rob.queue.getD i none = none)) ∧
    (∀ r k, (flush s b).2.rat.getD r none = some k → ¬ s.rob.discarded b k) ∧
    (∀ p, p ∈ (flush s b).2.reservation_stations → p.2.busy = true →
       ((∀ d, p.2.dest = some d → ¬ s.rob.discarded b d) ∧
        (∀ t, p.2.Qj = some t → ¬ s.rob.discarded b t) ∧
        (p.2.hasQk = true → ∀ t, p.2.Qk = some t → ¬ s.rob.discarded b t))) := by
  have hcpos : 0 < s.rob.count := by omega
  rcases hgo : ROB.flushTailGo b s.rob.count s.rob with ⟨⟨ri, dr, ii⟩, rob2⟩
  have hft : ROB.flush_tail s.rob b = ((ri, dr, ii), rob2) := by
    simp only [ROB.flush_tail]
    rw [if_neg (by omega)]
    exact hgo
  have hspec := flushTailGo_spec b hb s.rob.count s.rob hwf rfl hlive
  rw [hgo] at hspec
  obtain ⟨h1, h2, h3, h4, h5, h6⟩ := hspec
  have hflush : flush s b = (ii,
      { s with rob := rob2,
               rat := s.rat.map (fun reg =>
                 match reg with
                 | some k => if k ∈ ri then none else some k
                 | none => none),
               reservation_stations :=
                 (s.reservation_stations.foldl (flushRSStep ri) ([], [])).2,
               flushed_rs_entry_ids :=
                 (s.reservation_stations.foldl (flushRSStep ri) ([], [])).1 }) := by
    simp only [flush, hft]
  rw [hflush]
  refine ⟨⟨h1, h2, h4, h5⟩, ?_, ?_⟩
  · -- the RAT references no discarded index
    intro r k hk
    have hmap := getD_map_opt (fun reg =>
      match reg with
      | some k => if k ∈ ri then none else some k
      | none => none) rfl s.rat r
    rw [hmap] at hk
    rcases hrt : s.rat.getD r none with _ | k0
    · rw [hrt] at hk
      simp at hk
    · rw [hrt] at hk
      have hk2 : (if k0 ∈ ri then (none : Option Nat) else some k0) = some k := hk
      by_cases hmem : k0 ∈ ri
      · rw [if_pos hmem] at hk2
        cases hk2
      · rw [if_neg hmem] at hk2
        injection hk2 with hk2
        subst hk2
        rintro ⟨hk8, hgt, hltc⟩
        exact hmem (h6 k0 hk8 hgt hltc)
  · -- every surviving busy slot references no discarded index
    intro p hp hbusy
    have hbase : ∀ q ∈ (([], []) : List String × RSMap).2, q.2.busy = true →
        ((∀ d, q.2.dest = some d → d ∉ ri) ∧
         (∀ t, q.2.Qj = some t → t ∉ ri) ∧
         (q.2.hasQk = true → ∀ t, q.2.Qk = some t → t ∉ ri)) := by
      intro q hq
      cases hq
    have hfold := flushRS_fold_busy ri s.reservation_stations ([], []) hbase p hp hbusy
    refine ⟨?_, ?_, ?_⟩
    · intro d hd
      rintro ⟨h8, hgt, hltc⟩
      exact hfold.1 d hd (h6 d h8 hgt hltc)
    · intro t ht
      rintro ⟨h8, hgt, hltc⟩
      exact hfold.2.1 t ht (h6 t h8 hgt hltc)
    · intro hqk t ht
      rintro ⟨h8, hgt, hltc⟩
      exact hfold.2.2 hqk t ht (h6 t h8 hgt hltc)

end TomSim

namespace TomSim

set_option maxHeartbeats 2000000 in
/-- `rs_issue` either fails leaving the state untouched, or succeeds
touching only the reservation stations. -/
theorem rs_issue_cases (s : Sim) (instr : Instruction) (rob_index : Nat) :
    (rs_issue s instr rob_index).2 = s ∨
    ((rs_issue s instr rob_index).1 = true ∧
     (rs_issue s instr rob_index).2.rob = s.rob ∧
     (rs_issue s instr rob_index).2.rat = s.rat ∧
     (rs_issue s instr rob_index).2.timing = s.timing ∧
     (rs_issue s instr rob_index).2.next_index = s.next_index) := by
  simp only [rs_issue]
  by_cases h1 : instr.name = "LOAD"
  · rw [if_pos h1]
    repeat' split
    all_goals first | (left; rfl) | (right; exact ⟨rfl, rfl, rfl, rfl, rfl⟩)
  rw [if_neg h1]
  by_cases h2 : instr.name = "STORE"
  · rw [if_pos h2]
    repeat' split
    all_goals first | (left; rfl) | (right; exact ⟨rfl, rfl, rfl, rfl, rfl⟩)
  rw [if_neg h2]
  by_cases h3 : instr.name = "BEQ"
  · rw [if_pos h3]
    repeat' split
    all_goals first | (left; rfl) | (right; exact ⟨rfl, rfl, rfl, rfl, rfl⟩)
  rw [if_neg h3]
  by_cases h4 : instr.name = "CALL" ∨ instr.name = "RET"
  · rw [if_pos h4]
    repeat' split
    all_goals first | (left; rfl) | (right; exact ⟨rfl, rfl, rfl, rfl, rfl⟩)
  rw [if_neg h4]
  by_cases h5 : instr.name = "ADD" ∨ instr.name = "SUB"
  · rw [if_pos h5]
    repeat' split
    all_goals first | (left; rfl) | (right; exact ⟨rfl, rfl, rfl, rfl, rfl⟩)
  rw [if_neg h5]
  by_cases h6 : instr.name = "NAND"
  · rw [if_pos h6]
    repeat' split
    all_goals first | (left; rfl) | (right; exact ⟨rfl, rfl, rfl, rfl, rfl⟩)
  rw [if_neg h6]
  by_cases h7 : instr.name = "MUL"
  · rw [if_pos h7]
    repeat' split
    all_goals first | (left; rfl) | (right; exact ⟨rfl, rfl, rfl, rfl, rfl⟩)
  rw [if_neg h7]
  left
  rfl

theorem rs_issue_fail_state (s : Sim) (instr : Instruction) (rob_index : Nat) :
    (rs_issue s instr rob_index).1 = false → (rs_issue s instr rob_index).2 = s := by
  intro h
  rcases rs_issue_cases s instr rob_index with h2 | h2
  · exact h2
  · rw [h2.1] at h
    cases h

theorem rs_issue_preserves (s : Sim) (instr : Instruction) (rob_index : Nat) :
    (rs_issue s instr rob_index).2.rob = s.rob ∧
    (rs_issue s instr rob_index).2.rat = s.rat ∧
    (rs_issue s instr rob_index).2.timing = s.timing ∧
    (rs_issue s instr rob_index).2.next_index = s.next_index := by
  rcases rs_issue_cases s instr rob_index with h2 | h2
  · rw [h2]
    exact ⟨rfl, rfl, rfl, rfl⟩
  · exact h2.2

theorem insertByRob_length (x : WBEntry) (l : List WBEntry) :
    (insertByRob x l).length = l.length + 1 := by
  induction l with
  | nil => rfl
  | cons y ys ih =>
    simp only [insertByRob]
    split
    · simp [ih]
    · simp

theorem mem_insertByRob (y x : WBEntry) (l : List WBEntry) :
    y ∈ insertByRob x l ↔ y = x ∨ y ∈ l := by
  induction l with
  | nil => simp [insertByRob]
  | cons z zs ih =>
    simp only [insertByRob]
    split
    · simp only [List.mem_cons, ih]
      tauto
    · simp [List.mem_cons]
      try tauto

theorem sortByRob_length (l : List WBEntry) : (sortByRob l).length = l.length := by
  have haux : ∀ (l acc : List WBEntry),
      (l.foldl (fun acc x => insertByRob x acc) acc).length = acc.length + l.length := by
    intro l
    induction l with
    | nil => intro acc; simp
    | cons x xs ih =>
      intro acc
      simp only [List.foldl_cons]
      rw [ih, insertByRob_length]
      simp only [List.length_cons]
      omega
  simpa using haux l []

theorem mem_sortByRob (y : WBEntry) (l : List WBEntry) :
    y ∈ sortByRob l → y ∈ l := by
  have haux : ∀ (l acc : List WBEntry),
      y ∈ l.foldl (fun acc x => insertByRob x acc) acc → y ∈ acc ∨ y ∈ l := by
    intro l
    induction l with
    | nil => intro acc h; exact Or.inl h
    | cons x xs ih =>
      intro acc h
      simp only [List.foldl_cons] at h
      rcases ih _ h with h2 | h2
      · rw [mem_insertByRob] at h2
        rcases h2 with h2 | h2
        · exact Or.inr (by simp [h2])
        · exact Or.inl h2
      · exact Or.inr (by simp [h2])
  intro h
  rcases haux l [] h with h2 | h2
  · cases h2
  · exact h2

theorem extractFirstWB_mem (p : WBEntry → Bool) :
    ∀ (l : List WBEntry) (r : WBEntry) (rest : List WBEntry),
      extractFirstWB p l = some (r, rest) → r ∈ l := by
  intro l
  induction l with
  | nil => intro r rest h; cases h
  | cons x xs ih =>
    intro r rest h
    simp only [extractFirstWB] at h
    split at h
    · injection h with h
      cases h
      simp
    · rcases hrec : extractFirstWB p xs with _ | pr
      · rw [hrec] at h
        cases h
      · rcases pr with ⟨r2, rest2⟩
        rw [hrec] at h
        injection h with h
        injection h with h1 h2
        subst h1
        exact List.mem_cons_of_mem x (ih r2 rest2 hrec)

/-- C2: when `process_write_back` runs with the CDB already busy and a
non-empty write queue, the selected result is removed from the write queue
and appended to `cdb.pending_broadcasts` — with the rest of the state
(including the ROB, registers and memory) untouched.  No code path ever
reads `pending_broadcasts` back, so the result never reaches the CDB: the
"loser" does *not* stay in the write-back queue, contradicting the claim.
-/
theorem process_write_back_busy_drops (s : Sim) (current_cycle : Nat)
    (hbusy : s.cdb.is_busy = true) (hq : s.write_queue ≠ []) :
    ∃ result rest, result ∈ s.write_queue ∧
      process_write_back s current_cycle =
        { s with write_queue := rest,
                 cdb := { s.cdb with pending_broadcasts :=
                     s.cdb.pending_broadcasts ++
                       [(result.rob_index, result.value, result.instruction_type)] } } := by
  simp only [process_write_back]
  rw [if_neg hq]
  rcases hex : extractFirstWB (fun r => r.rob_index = get_oldest_ready_rob_index s)
      s.write_queue with _ | pr
  · -- fall back to the stable sort
    rcases hs : sortByRob s.write_queue with _ | ⟨r, rest⟩
    · exfalso
      have := sortByRob_length s.write_queue
      rw [hs] at this
      simp at this
      exact hq (List.eq_nil_of_length_eq_zero this.symm)
    · refine ⟨r, rest, mem_sortByRob r s.write_queue (by rw [hs]; simp), ?_⟩
      simp only [CDBState.broadcast, hbusy, if_pos]
      rfl
  · rcases pr with ⟨r, rest⟩
    refine ⟨r, rest, extractFirstWB_mem _ s.write_queue r rest hex, ?_⟩
    simp only [CDBState.broadcast, hbusy, if_pos]
    rfl

end TomSim

namespace TomSim

theorem issue_next_eq_tail (s : Sim) (cycle : Nat)
    (h1 : s.next_index < s.instructions.length)
    (h2 : (is_instruction_in_flight s (s.instructions.getD s.next_index default).instr_id &&
          ! (match s.last_jump_index with
             | some j => decide (j ≤ s.next_index)
             | none => false)) = false) :
    issue_next s cycle = issue_tail s cycle := by
  have hgate : ¬ ((is_instruction_in_flight s
      (s.instructions.getD s.next_index default).instr_id &&
      ! (match s.last_jump_index with
         | some j => decide (j ≤ s.next_index)
         | none => false)) = true) := by
    rw [h2]; simp
  simp only [issue_next]
  rw [if_pos h1, if_neg hgate]
  rfl

/-- C1: behaviour of `issue_next` on a structural stall.  In both stall
cases (RS class full; RS available but ROB full) no instruction is issued
and the ROB, RAT and issue pointer are unchanged — but, contrary to the
claim, the timing tracker has already recorded `issue = cycle` for the
stalled instruction (the state equals `issue_mut`'s mutation of `s`), and
in the ROB-full case the reservation-station slot allocated by `rs_issue`
additionally stays occupied. -/
theorem issue_next_structural_stall (s : Sim) (cycle : Nat)
    (h1 : s.next_index < s.instructions.length)
    (h2 : (is_instruction_in_flight s (s.instructions.getD s.next_index default).instr_id &&
          ! (match s.last_jump_index with
             | some j => decide (j ≤ s.next_index)
             | none => false)) = false) :
    ((rs_issue (issue_mut s cycle).2 (issue_mut s cycle).1
        ((issue_mut s cycle).2.rob.tail % robSize)).1 = false →
       issue_next s cycle = (none, false, (issue_mut s cycle).2)) ∧
    ((rs_issue (issue_mut s cycle).2 (issue_mut s cycle).1
        ((issue_mut s cycle).2.rob.tail % robSize)).1 = true →
     s.rob.is_full = true →
       (issue_next s cycle).1 = none ∧
       (issue_next s cycle).2.1 = false ∧
       (issue_next s cycle).2.2.rob = s.rob ∧
       (issue_next s cycle).2.2.rat = s.rat ∧
       (issue_next s cycle).2.2.next_index = s.next_index ∧
       (issue_next s cycle).2.2.timing = (issue_mut s cycle).2.timing ∧
       (issue_next s cycle).2.2.reservation_stations =
         (rs_issue (issue_mut s cycle).2 (issue_mut s cycle).1
           ((issue_mut s cycle).2.rob.tail % robSize)).2.reservation_stations) := by
  rw [issue_next_eq_tail s cycle h1 h2]
  constructor
  · intro hfail
    simp only [issue_tail]
    rw [if_pos (by simp [hfail])]
    rw [rs_issue_fail_state _ _ _ hfail]
  · intro hsucc hfull
    simp only [issue_tail]
    rw [if_neg (by simp [hsucc])]
    have hfold : (rs_issue (issue_mut s cycle).2 (issue_mut s cycle).1
        ((issue_mut s cycle).2.rob.tail % robSize)).2.rob = s.rob :=
      (rs_issue_preserves _ _ _).1
    simp only [ROB.push, CQ.enqueue]
    rw [hfold, if_pos hfull]
    rw [if_pos (by simp)]
    refine ⟨rfl, rfl, rfl, (rs_issue_preserves _ _ _).2.1, ?_, ?_, rfl⟩
    · exact (rs_issue_preserves _ _ _).2.2.2
    · exact (rs_issue_preserves _ _ _).2.2.1

end TomSim

namespace TomSim

/-- C1 counterexample: issuing the second NAND while the only NAND
reservation station is busy returns `(None, False)` yet records
`issue = 2` in the timing tracker, so the state is *not* left unchanged. -/
theorem issue_next_stall_mutates_timing :
    (issue_next simNandStall 2).1 = none ∧
    (issue_next simNandStall 2).2.1 = false ∧
    simNandStall.timing 2 = none ∧
    (issue_next simNandStall 2).2.2.timing 2 =
      some { issue := some 2, start_exec := none, finish_exec := none,
             write := none, commit := none } := by
  refine ⟨by decide, by decide, by decide, by decide⟩

/-- C1 witness: the structural-stall theorem applied to `simNandStall`. -/
theorem issue_next_structural_stall_witness :
    issue_next simNandStall 2 = (none, false, (issue_mut simNandStall 2).2) :=
  (issue_next_structural_stall simNandStall 2 (by decide) (by decide)).1 (by decide)

end TomSim

namespace TomSim

/-- C4: redirect arbitration in `notify_branch_result`.  When the pending
redirect is label-based, the older-by-ROB-distance branch wins in both
directions; but when the pending redirect is address-based (label `none`,
as a RET leaves it), the new taken branch is installed *unconditionally* —
the older-wins comparison is skipped, contradicting the claim. -/
theorem notify_branch_redirect_priority (s : Sim) (ri p : Nat) (t : Int)
    (lbl : Option String) (l0 : String)
    (hp : s.pending_branch_rob_index = some p) :
    (s.pending_branch_label = some l0 →
      (s.rob.dist ri < s.rob.dist p →
        (notify_branch_result s ri true t lbl).1 = some t ∧
        (notify_branch_result s ri true t lbl).2.pending_branch_rob_index = some ri ∧
        (notify_branch_result s ri true t lbl).2.pending_branch_label = lbl) ∧
      (¬ s.rob.dist ri < s.rob.dist p →
        notify_branch_result s ri true t lbl = (none, s))) ∧
    (s.pending_branch_label = none →
      (notify_branch_result s ri true t lbl).1 = some t ∧
      (notify_branch_result s ri true t lbl).2.pending_branch_rob_index = some ri ∧
      (notify_branch_result s ri true t lbl).2.pending_branch_label = lbl) := by
  constructor
  · intro hl
    constructor
    · intro hd
      simp only [notify_branch_result, hl, hp]
      rw [if_pos hd]
      rcases hfl : flush s ri with ⟨fids, s1⟩
      simp [hfl]
    · intro hd
      simp only [notify_branch_result, hl, hp]
      rw [if_neg hd]
      simp
  · intro hl
    simp only [notify_branch_result, hl]
    rcases hfl : flush s ri with ⟨fids, s1⟩
    simp [hfl]

/-- C4 counterexample: with an older address-based (RET) redirect pending
at ROB index 1, a younger taken branch at index 5 overwrites it. -/
theorem notify_branch_younger_overwrites_ret :
    simTwoBranches.pending_branch_label = none ∧
    simTwoBranches.pending_branch_rob_index = some 1 ∧
    simTwoBranches.rob.dist 1 < simTwoBranches.rob.dist 5 ∧
    (notify_branch_result simTwoBranches 5 true 9 (some "L")).2.pending_branch_rob_index
      = some 5 := by
  refine ⟨by decide, by decide, by decide, by decide⟩

/-- C4 witness: the arbitration theorem applied to `simTwoBranches`. -/
theorem notify_branch_redirect_priority_witness :
    (notify_branch_result simTwoBranches 5 true 9 none).1 = some 9 ∧
    (notify_branch_result simTwoBranches 5 true 9 none).2.pending_branch_rob_index
      = some 5 ∧
    (notify_branch_result simTwoBranches 5 true 9 none).2.pending_branch_label = none :=
  (notify_branch_redirect_priority simTwoBranches 5 1 9 none "" (by decide)).2 (by decide)

end TomSim

namespace TomSim

theorem commit_apply_arch_timing (s : Sim) (oldest : ROBEntry) :
    (commit_apply_arch s oldest).timing = s.timing := by
  simp only [commit_apply_arch, clear_rat_mapping]
  repeat' split
  all_goals rfl

/-- C6: the commit-time guard of `commit_rob_entry`.  Whenever a commit
changes the timing table, the touched row previously had no commit cycle,
had `finish_exec` set and `write = w ≤ cycle`, and the new row records
`commit = cycle`.  (The full `issue ≤ start_exec ≤ finish_exec ≤ write ≤
commit` chain claimed in the spec is nonetheless violated across redirects
— see the counterexample.) -/
theorem commit_timing_guard (s : Sim) (cycle : Nat) (id : Nat)
    (h : (commit_rob_entry s cycle).2.timing id ≠ s.timing id) :
    ∃ e w, s.timing id = some e ∧ e.commit = none ∧ e.finish_exec ≠ none ∧
      e.write = some w ∧ w ≤ cycle ∧
      (commit_rob_entry s cycle).2.timing id = some { e with commit := some cycle } := by
  by_cases hcnt : s.rob.count = 0
  · exact absurd (by simp [commit_rob_entry, hcnt]) h
  rcases hpk : s.rob.peek_front with _ | oldest
  · exact absurd (by simp [commit_rob_entry, hcnt, hpk]) h
  by_cases hrdy : oldest.ready = true
  case neg => exact absurd (by simp [commit_rob_entry, hcnt, hpk, hrdy]) h
  have hstep : (commit_rob_entry s cycle).2.timing =
      (commit_record_timing s cycle oldest).timing := by
    simp [commit_rob_entry, hcnt, hpk, hrdy, commit_apply_arch_timing]
  rw [hstep] at h ⊢
  rcases hid0 : oldest.instr_id with _ | id0
  · exact absurd (by simp [commit_record_timing, hid0]) h
  rcases he0 : s.timing id0 with _ | e0
  · exact absurd (by simp [commit_record_timing, hid0, he0]) h
  by_cases hc0 : e0.commit = none
  case neg => exact absurd (by simp [commit_record_timing, hid0, he0, hc0]) h
  rcases hfin : e0.finish_exec with _ | fval
  · exact absurd (by simp [commit_record_timing, hid0, he0, hc0, hfin]) h
  rcases hwv : e0.write with _ | wval
  · exact absurd (by simp [commit_record_timing, hid0, he0, hc0, hfin, hwv]) h
  by_cases hwle : wval ≤ cycle
  case neg =>
    exact absurd (by simp [commit_record_timing, hid0, he0, hc0, hfin, hwv, hwle]) h
  by_cases hidm : id = id0
  case neg =>
    exact absurd (by simp [commit_record_timing, hid0, he0, hc0, hfin, hwv, hwle,
      TimingTracker.record_commit, hidm]) h
  subst hidm
  refine ⟨e0, wval, he0, hc0, by simp [hfin], hwv, hwle, ?_⟩
  simp [commit_record_timing, hid0, he0, hc0, hfin, hwv, hwle, TimingTracker.record_commit]

end TomSim

namespace TomSim

theorem runLoop_stop_complete (m f c : Nat) (s : Sim) (h : is_complete s = true) :
    runLoop m f c s = (c, s) := by
  cases f with
  | zero => rfl
  | succ f => by_cases hc : c < m <;> simp [runLoop, hc, h]

theorem runLoop_stop_max (m f c : Nat) (s : Sim) (h : ¬ c < m) :
    runLoop m f c s = (c, s) := by
  cases f with
  | zero => rfl
  | succ f => simp [runLoop, h]

theorem runLoop_le (m : Nat) : ∀ (fuel cycle : Nat) (s : Sim),
    cycle ≤ m → (runLoop m fuel cycle s).1 ≤ m := by
  intro fuel
  induction fuel with
  | zero => intro c s h; exact h
  | succ f ih =>
    intro c s h
    by_cases hc : c < m
    · by_cases hcm : is_complete s = true
      · simp only [runLoop, if_pos hc, if_pos hcm]
        exact h
      · simp only [runLoop, if_pos hc, if_neg hcm]
        exact ih (c + 1) _ hc
    · simp only [runLoop, if_neg hc]
      exact h

theorem runLoop_append (m : Nat) : ∀ (f1 f2 c : Nat) (s : Sim),
    runLoop m (f1 + f2) c s =
      runLoop m f2 (runLoop m f1 c s).1 (runLoop m f1 c s).2 := by
  intro f1
  induction f1 with
  | zero => intro f2 c s; simp [runLoop]
  | succ f ih =>
    intro f2 c s
    by_cases hc : c < m
    · by_cases hcm : is_complete s = true
      · rw [runLoop_stop_complete m (f + 1 + f2) c s hcm,
            runLoop_stop_complete m (f + 1) c s hcm]
        exact (runLoop_stop_complete m f2 c s hcm).symm
      · have hplus : f + 1 + f2 = (f + f2) + 1 := by omega
        have e1 : runLoop m (f + 1 + f2) c s =
            runLoop m (f + f2) (c + 1) (cycleBody (c + 1) s) := by
          rw [hplus]
          simp only [runLoop, if_pos hc, if_neg hcm]
        have e2 : runLoop m (f + 1) c s =
            runLoop m f (c + 1) (cycleBody (c + 1) s) := by
          simp only [runLoop, if_pos hc, if_neg hcm]
        rw [e1, e2, ih]
    · rw [runLoop_stop_max m (f + 1 + f2) c s hc, runLoop_stop_max m (f + 1) c s hc]
      exact (runLoop_stop_max m f2 c s hc).symm

end TomSim

namespace TomSim

/-- C6 counterexample: 4 cycles into the run of the backward-jumping
program, instruction 1 has been re-issued under its old id, leaving the row
`issue = 4, start_exec = 2, finish_exec = 4, write = 3, commit = 3`, which
violates the claimed chain; the third conjunct places this state on the
actual `Sim.run` trajectory. -/
theorem timing_chain_violated_in_run :
    (runLoop 1000 4 0 simLoop).2.timing 1 =
      some { issue := some 4, start_exec := some 2, finish_exec := some 4,
             write := some 3, commit := some 3 } ∧
    TimingEntry.chainOk { issue := some 4, start_exec := some 2,
                          finish_exec := some 4, write := some 3,
                          commit := some 3 } = false ∧
    runLoop 1000 1000 0 simLoop =
      runLoop 1000 996 (runLoop 1000 4 0 simLoop).1 (runLoop 1000 4 0 simLoop).2 := by
  refine ⟨by decide, by decide, ?_⟩
  have h : (4 : Nat) + 996 = 1000 := by decide
  rw [← h]
  exact runLoop_append 1000 4 996 0 simLoop

/-- C6 witness: the commit-guard theorem applied to `simCommitReady`. -/
theorem commit_timing_guard_witness :
    (commit_rob_entry simCommitReady 5).2.timing 1 ≠ simCommitReady.timing 1 ∧
    ∃ e w, simCommitReady.timing 1 = some e ∧ e.commit = none ∧
      e.finish_exec ≠ none ∧ e.write = some w ∧ w ≤ 5 ∧
      (commit_rob_entry simCommitReady 5).2.timing 1 =
        some { e with commit := some 5 } :=
  ⟨by decide, commit_timing_guard simCommitReady 5 1 (by decide)⟩

end TomSim

namespace TomSim

theorem xor_ones16 (a : Nat) (ha : a < 65536) : a ^^^ 65535 = 65535 - a := by
  have hpow : (2 : Nat) ^ 16 = 65536 := by norm_num
  have ha' : a < 2 ^ 16 := by omega
  have h2 : 65535 - a = 2 ^ 16 - (a + 1) := by omega
  have h1 : (65535 : Nat) = 2 ^ 16 - 1 := by norm_num
  apply Nat.eq_of_testBit_eq
  intro i
  rw [Nat.testBit_xor, h2, Nat.testBit_two_pow_sub_succ ha', h1,
      Nat.testBit_two_pow_sub_one]
  by_cases hi : i < 16
  · simp [hi]
  · have hb : a.testBit i = false := by
      apply Nat.testBit_lt_two_pow
      calc a < 2 ^ 16 := ha'
        _ ≤ 2 ^ i := Nat.pow_le_pow_right (by norm_num) (by omega)
    simp [hi, hb]

/-- C7: for 16-bit operand values, `AddSubFU` computes `(x + y) mod 2^16`
and `(x - y) mod 2^16`, `NandFU` computes the bitwise NAND truncated to 16
bits, and `MulFU` keeps the low 16 bits of the product. -/
theorem fu_arithmetic_mod_2_16 (fu : FU) (x y : Nat)
    (hx : x < 65536) (hy : y < 65536)
    (hj : fu.operands.Vj = some (x : Int)) (hk : fu.operands.Vk = some (y : Int)) :
    ((fu.current_instruction.map (·.op)).getD "" = "ADD" →
       fu.computeAddSub = .pint (((x + y) % 65536 : Nat) : Int)) ∧
    ((fu.current_instruction.map (·.op)).getD "" = "SUB" →
       fu.computeAddSub = .pint (((x + 65536 - y) % 65536 : Nat) : Int)) ∧
    fu.computeNand = .pint ((((x &&& y) ^^^ 65535 : Nat) : Int)) ∧
    fu.computeMul = .pint (((x * y) % 65536 : Nat) : Int) := by
  refine ⟨?_, ?_, ?_, ?_⟩
  · intro hop
    simp only [FU.computeAddSub, hj, hk, hop, Option.getD_some, if_pos]
    simp only [PyVal.pint.injEq]
    omega
  · intro hop
    simp only [FU.computeAddSub, hj, hk, hop, Option.getD_some]
    rw [if_pos trivial]
    exact congrArg PyVal.pint (by omega)
  · simp only [FU.computeNand, hj, hk, Option.getD_some, Int.toNat_natCast,
      Int.ofNat_eq_natCast]
    simp only [PyVal.pint.injEq]
    have hand : x &&& y < 65536 := Nat.lt_of_le_of_lt (Nat.and_le_left) hx
    rw [xor_ones16 _ hand]
    omega
  · simp only [FU.computeMul, hj, hk, Option.getD_some]
    simp only [PyVal.pint.injEq]
    push_cast
    ring

/-- C7 witness: the arithmetic theorem applied to a concrete ADD unit. -/
theorem fu_arithmetic_mod_2_16_witness :
    ((fuArithDemo.current_instruction.map (·.op)).getD "" = "ADD" →
       fuArithDemo.computeAddSub = .pint (((100 + 7) % 65536 : Nat) : Int)) ∧
    ((fuArithDemo.current_instruction.map (·.op)).getD "" = "SUB" →
       fuArithDemo.computeAddSub = .pint (((100 + 65536 - 7) % 65536 : Nat) : Int)) ∧
    fuArithDemo.computeNand = .pint ((((100 &&& 7) ^^^ 65535 : Nat) : Int)) ∧
    fuArithDemo.computeMul = .pint (((100 * 7) % 65536 : Nat) : Int) :=
  fu_arithmetic_mod_2_16 fuArithDemo 100 7 (by decide) (by decide) (by decide) (by decide)

end TomSim

namespace TomSim

theorem write_preserves_r0 (rf : RegisterFile) (r v : Int) :
    (rf.write r v).1.registers.getD 0 0 = rf.registers.getD 0 0 := by
  simp only [RegisterFile.write]
  split
  · rfl
  · rename_i hrange
    split
    · rename_i hnz
      have hj : (0 : Nat) ≠ r.toNat := by omega
      simp only [list_getD_set]
      rw [if_neg (by tauto)]
    · rfl

/-- C9: after any sequence of register-file writes starting from the fresh
file, reading register 0 returns 0, and a further write to register 0
returns the file unchanged (and raises nothing). -/
theorem register_zero_immutable (ws : List (Int × Int)) (v : Int) :
    (RegisterFile.init.applyWrites ws).read 0 = some 0 ∧
    (RegisterFile.init.applyWrites ws).write 0 v =
      ((RegisterFile.init.applyWrites ws), false) := by
  have key : ∀ (ws : List (Int × Int)) (rf : RegisterFile),
      rf.registers.getD 0 0 = 0 →
      (rf.applyWrites ws).registers.getD 0 0 = 0 := by
    intro ws
    induction ws with
    | nil => intro rf h; exact h
    | cons w rest ih =>
      intro rf h
      simp only [RegisterFile.applyWrites, List.foldl_cons]
      exact ih _ (by rw [write_preserves_r0]; exact h)
  have h0 : (RegisterFile.init.applyWrites ws).registers.getD 0 0 = 0 :=
    key ws RegisterFile.init (by decide)
  constructor
  · simp only [RegisterFile.read]
    rw [if_neg (by omega)]
    rw [show ((0 : Int).toNat) = 0 from rfl, h0]
  · simp only [RegisterFile.write]
    rw [if_neg (by omega), if_neg (by omega)]

/-- C10: `RegisterFile.read`/`write` raise `ValueError` (modelled as
`none` / the `true` flag) exactly when the index is outside `0..7`, and a
raising write leaves the register contents unchanged. -/
theorem register_file_range_check (rf : RegisterFile) (r v : Int) :
    (rf.read r = none ↔ (r < 0 ∨ 7 < r)) ∧
    ((rf.write r v).2 = true ↔ (r < 0 ∨ 7 < r)) ∧
    ((r < 0 ∨ 7 < r) → (rf.write r v).1 = rf) := by
  refine ⟨?_, ?_, ?_⟩
  · simp only [RegisterFile.read]
    by_cases h : r < 0 ∨ r > 7
    · rw [if_pos h]
      simpa using h
    · rw [if_neg h]
      simp only [reduceCtorEq, false_iff]
      omega
  · simp only [RegisterFile.write]
    by_cases h : r < 0 ∨ r > 7
    · rw [if_pos h]
      simpa using h
    · rw [if_neg h]
      by_cases hz : r ≠ 0
      · rw [if_pos hz]
        simp only [Bool.false_eq_true, false_iff]
        omega
      · rw [if_neg hz]
        simp only [Bool.false_eq_true, false_iff]
        omega
  · intro h
    simp only [RegisterFile.write]
    rw [if_pos h]

end TomSim

namespace TomSim

/-- C5 counterexample: the freshly constructed core has 2 NAND functional
units where the claim (and spec) say 1. -/
theorem nand_units_count_mismatch :
    (Sim.init [] [] Memory.init).fu_pool.nand_units.length = 2 := by decide

/-- C5: the full default configuration of a fresh core: the 12 named RS
slots, and per family the FU count, kind and latency — matching the claim
except that there are 2 NAND FUs (latency 1), not 1. -/
theorem default_pool_configuration :
    (Sim.init [] [] Memory.init).reservation_stations.map Prod.fst =
      ["LOAD1", "LOAD2", "STORE", "BEQ1", "BEQ2", "CALL/RET",
       "ADD/SUB1", "ADD/SUB2", "ADD/SUB3", "ADD/SUB4", "NAND", "MUL"] ∧
    (Sim.init [] [] Memory.init).fu_pool.load_units.length = 2 ∧
    (∀ u ∈ (Sim.init [] [] Memory.init).fu_pool.load_units,
      u.kind = .load ∧ u.latency = 6) ∧
    (Sim.init [] [] Memory.init).fu_pool.store_units.length = 1 ∧
    (∀ u ∈ (Sim.init [] [] Memory.init).fu_pool.store_units,
      u.kind = .store ∧ u.latency = 6) ∧
    (Sim.init [] [] Memory.init).fu_pool.beq_units.length = 2 ∧
    (∀ u ∈ (Sim.init [] [] Memory.init).fu_pool.beq_units,
      u.kind = .beq ∧ u.latency = 1) ∧
    (Sim.init [] [] Memory.init).fu_pool.call_ret_units.length = 1 ∧
    (∀ u ∈ (Sim.init [] [] Memory.init).fu_pool.call_ret_units,
      u.kind = .callret ∧ u.latency = 1) ∧
    (Sim.init [] [] Memory.init).fu_pool.add_sub_units.length = 4 ∧
    (∀ u ∈ (Sim.init [] [] Memory.init).fu_pool.add_sub_units,
      u.kind = .addsub ∧ u.latency = 2) ∧
    (Sim.init [] [] Memory.init).fu_pool.nand_units.length = 2 ∧
    (∀ u ∈ (Sim.init [] [] Memory.init).fu_pool.nand_units,
      u.kind = .nand ∧ u.latency = 1) ∧
    (Sim.init [] [] Memory.init).fu_pool.mul_units.length = 1 ∧
    (∀ u ∈ (Sim.init [] [] Memory.init).fu_pool.mul_units,
      u.kind = .mul ∧ u.latency = 12) := by decide

end TomSim

namespace TomSim

theorem runLoop_fuel_irrelevant (m : Nat) : ∀ (f1 f2 c : Nat) (s : Sim),
    m ≤ c + f1 → m ≤ c + f2 → runLoop m f1 c s = runLoop m f2 c s := by
  intro f1
  induction f1 with
  | zero =>
    intro f2 c s h1 h2
    have hc : ¬ c < m := by omega
    rw [runLoop_stop_max m f2 c s hc]
    rfl
  | succ f ih =>
    intro f2 c s h1 h2
    by_cases hc : c < m
    · cases f2 with
      | zero => exfalso; omega
      | succ f2 =>
        by_cases hcm : is_complete s = true
        · simp only [runLoop, if_pos hc, if_pos hcm]
        · simp only [runLoop, if_pos hc, if_neg hcm]
          exact ih f2 (c + 1) _ (by omega) (by omega)
    · rw [runLoop_stop_max m _ c s hc, runLoop_stop_max m f2 c s hc]

/-- C8: for every program, label map and memory pre-state, `run` halts
with a cycle counter of at most 1000, and giving the driver any fuel
beyond the watchdog produces the identical result (the loop makes at most
`max_cycles` iterations). -/
theorem run_halts_within_watchdog (instructions : List Instruction)
    (label_map : List (String × Nat)) (mem : Memory) :
    (Sim.init instructions label_map mem).run.1 ≤ 1000 ∧
    ∀ fuel, 1000 ≤ fuel →
      runLoop 1000 fuel 0 (Sim.init instructions label_map mem) =
        (Sim.init instructions label_map mem).run := by
  constructor
  · exact runLoop_le 1000 1000 0 _ (by omega)
  · intro fuel hf
    exact runLoop_fuel_irrelevant 1000 fuel 1000 0 _ (by omega) (by omega)

/-- C8 witness: the watchdog theorem applied to the empty program. -/
theorem run_halts_within_watchdog_witness :
    (Sim.init [] [] Memory.init).run.1 ≤ 1000 ∧
    runLoop 1000 1001 0 (Sim.init [] [] Memory.init) = (Sim.init [] [] Memory.init).run :=
  ⟨(run_halts_within_watchdog [] [] Memory.init).1,
   (run_halts_within_watchdog [] [] Memory.init).2 1001 (by decide)⟩

end TomSim

namespace TomSim

/-- C3 witness: the flush theorem applied to `simFlushDemo` at branch index 1. -/
theorem flush_taken_branch_witness :
    simFlushDemo.rob.WF ∧ (1 : Nat) < robSize ∧
    simFlushDemo.rob.dist 1 < simFlushDemo.rob.count ∧
    (flush simFlushDemo 1).2.rob.head = simFlushDemo.rob.head ∧
    (flush simFlushDemo 1).2.rob.count = simFlushDemo.rob.dist 1 + 1 :=
  ⟨by simp only [CQ.WF, CQ.dist]; decide, by decide, by decide,
   (flush_taken_branch simFlushDemo 1 (by simp only [CQ.WF, CQ.dist]; decide)
     (by decide) (by decide)).1.1,
   (flush_taken_branch simFlushDemo 1 (by simp only [CQ.WF, CQ.dist]; decide)
     (by decide) (by decide)).1.2.1⟩

/-- C2 witness: the drop theorem applied to the state after 3 cycles of the loop program. -/
theorem process_write_back_busy_drops_witness :
    simLoopAfter3.cdb.is_busy = true ∧ simLoopAfter3.write_queue ≠ [] ∧
    ∃ result rest, result ∈ simLoopAfter3.write_queue ∧
      process_write_back simLoopAfter3 4 =
        { simLoopAfter3 with
            write_queue := rest,
            cdb := { simLoopAfter3.cdb with
                     pending_broadcasts := simLoopAfter3.cdb.pending_broadcasts ++
                       [(result.rob_index, result.value, result.instruction_type)] } } :=
  ⟨by decide, by decide,
   process_write_back_busy_drops simLoopAfter3 4 (by decide) (by decide)⟩

end TomSim
